import Mathlib

-- Verification of the CiliTest policy tool: a shallow embedding of the
-- converter (src/converter.py), the enforcement simulator and rule extractor
-- (src/tester.py), the connection extractor (src/visualizer.py) and the
-- schema/suggestion validator (src/validator.py), together with theorems
-- settling the specification claims about them.

namespace CiliTest

-- ## Dynamic (Python-level) value model
--
-- `Val` models the YAML/JSON trees that `yaml.safe_load` produces: Python
-- `None`, strings, integers, booleans, lists and string-keyed dicts
-- (association lists, keys unique as in a parsed YAML mapping).

inductive Val where
  | vnone : Val
  | str : String → Val
  | int : Int → Val
  | bool : Bool → Val
  | list : List Val → Val
  | dict : List (String × Val) → Val

-- Python truthiness of a value (used by `or` chains and `if x:` tests).
def truthy : Val → Bool
  | .vnone => false
  | .str s => !(s == "")
  | .int n => !(n == 0)
  | .bool b => b
  | .list l => !l.isEmpty
  | .dict d => !d.isEmpty

-- Python `x == "lit"` where one side is a `str`: values of any other type
-- compare unequal, never raising.
def Val.eqStr : Val → String → Bool
  | .str a, s => a == s
  | _, _ => false

def Val.isDict : Val → Bool
  | .dict _ => true
  | _ => false

def Val.typeName : Val → String
  | .vnone => "NoneType"
  | .str _ => "str"
  | .int _ => "int"
  | .bool _ => "bool"
  | .list _ => "list"
  | .dict _ => "dict"

-- Python exceptions that the modelled code can raise.
inductive PyErr where
  | attributeError (typeName attr : String)
  | typeError (msg : String)
  | keyError (key : String)
  deriving DecidableEq

deriving instance DecidableEq for Except

-- Wrap a string in single quotes, as Python error messages do.
def pyq (s : String) : String := "\x27" ++ s ++ "\x27"

-- Python `obj.get(key, dflt)` / `obj.get(key)` (with `dflt` = `vnone`):
-- an AttributeError unless `obj` is a dict.
def pyGetD (v : Val) (key : String) (dflt : Val) : Except PyErr Val :=
  match v with
  | .dict d => .ok ((List.lookup key d).getD dflt)
  | x => .error (.attributeError x.typeName "get")

-- Contiguous-prefix and substring tests on character lists, for the Python
-- `needle in haystack` string membership below.
def charsPrefix : List Char → List Char → Bool
  | [], _ => true
  | _ :: _, [] => false
  | a :: as, b :: bs => a == b && charsPrefix as bs

def charsSub (needle : List Char) : List Char → Bool
  | [] => needle.isEmpty
  | c :: rest => charsPrefix needle (c :: rest) || charsSub needle rest

-- Python `key in obj` for a string key: dict key membership, list element
-- membership, substring test on strings; TypeError otherwise.
def pyContains (v : Val) (key : String) : Except PyErr Bool :=
  match v with
  | .dict d => .ok (d.any (fun kv => kv.1 == key))
  | .list l => .ok (l.any (fun x => Val.eqStr x key))
  | .str s => .ok (charsSub key.data s.data)
  | x => .error (.typeError ("argument of type " ++ pyq x.typeName ++ " is not iterable"))

-- Python `obj[key]` for a string key.
def pyIndex (v : Val) (key : String) : Except PyErr Val :=
  match v with
  | .dict d =>
      match List.lookup key d with
      | some x => .ok x
      | Option.none => .error (.keyError key)
  | .str _ => .error (.typeError "string indices must be integers")
  | .list _ => .error (.typeError "list indices must be integers or slices, not str")
  | x => .error (.typeError (pyq x.typeName ++ " object is not subscriptable"))

-- Python `for x in obj`: lists yield elements, dicts yield their keys,
-- strings yield one-character strings; TypeError otherwise.
def pyIter (v : Val) : Except PyErr (List Val) :=
  match v with
  | .list l => .ok l
  | .dict d => .ok (d.map (fun kv => Val.str kv.1))
  | .str s => .ok (s.data.map (fun c => Val.str (String.singleton c)))
  | x => .error (.typeError (pyq x.typeName ++ " object is not iterable"))

-- ## Typed policy-document model
--
-- The structured shape of a CiliumNetworkPolicy as the repository builds it
-- (converter output) and reads it (simulator / extractors).  A missing
-- `matchLabels` mapping is the empty list, matching the `.get(key, {})`
-- defaults in the Python code; a missing `toPorts` / `egress` /
-- `toEndpoints` key is the empty list, matching `.get(key, [])`.

structure LabelSelector where
  matchLabels : List (String × String)
  deriving DecidableEq

-- The single label the simulator and extractors consult:
-- `selector.get("matchLabels", {}).get("app")`.
def LabelSelector.app (sel : LabelSelector) : Option String :=
  List.lookup "app" sel.matchLabels

structure PortEntry where
  port : Option String
  protocol : Option String
  deriving DecidableEq

structure PortRule where
  ports : List PortEntry
  deriving DecidableEq

structure EgressRule where
  toEndpoints : List LabelSelector
  toPorts : List PortRule
  deriving DecidableEq

structure PolicySpec where
  endpointSelector : LabelSelector
  egress : List EgressRule
  deriving DecidableEq

structure CNPDoc where
  apiVersion : String
  kind : String
  metadataName : String
  specs : List PolicySpec
  deriving DecidableEq

-- ## Enforcement simulator, typed (tester.py `_simulate_policy_enforcement`)

-- `src_labels.get("app") == src` (line 159).
def specMatchesSrc (src : String) (s : PolicySpec) : Bool :=
  s.endpointSelector.app == some src

-- `dest_labels.get("app") == dest` (line 165).
def endpointMatchesDest (dest : String) (ep : LabelSelector) : Bool :=
  ep.app == some dest

-- `port_spec.get("port") == port or port == "any"` (line 173).
def portEntryAdmits (port : String) (ps : PortEntry) : Bool :=
  ps.port == some port || port == "any"

-- A rule whose `toEndpoints` matched: `if not to_ports` allows outright,
-- otherwise some listed ports entry must admit the candidate port.
def toPortsAdmit (port : String) (tps : List PortRule) : Bool :=
  tps.isEmpty || tps.any (fun pr => pr.ports.any (portEntryAdmits port))

def ruleMatchesDest (dest : String) (e : EgressRule) : Bool :=
  e.toEndpoints.any (endpointMatchesDest dest)

-- The overall allow condition of the simulator: some spec matches `src` and
-- one of its egress rules matches `dest` and admits `port`.
def docAllows (src dest port : String) (cnp : CNPDoc) : Bool :=
  cnp.specs.any (fun s =>
    specMatchesSrc src s &&
    s.egress.any (fun e => ruleMatchesDest dest e && toPortsAdmit port e.toPorts))

-- Innermost loop `for port_spec in ports` (lines 172-174).
def scanPortSpecs (port : String) : List PortEntry → Option (String × String)
  | [] => Option.none
  | ps :: rest =>
      if portEntryAdmits port ps then
        some ("allowed", "Policy allows connection on port " ++ port)
      else scanPortSpecs port rest

-- Loop `for port_rule in to_ports` (lines 170-174).
def scanToPorts (port : String) : List PortRule → Option (String × String)
  | [] => Option.none
  | pr :: rest =>
      match scanPortSpecs port pr.ports with
      | some r => some r
      | Option.none => scanToPorts port rest

-- Loop `for endpoint in to_endpoints` (lines 163-174); `toPorts` is fetched
-- from the enclosing egress rule when an endpoint matches.
def scanToEndpoints (dest port : String) (toPorts : List PortRule) :
    List LabelSelector → Option (String × String)
  | [] => Option.none
  | ep :: rest =>
      if endpointMatchesDest dest ep then
        if toPorts.isEmpty then some ("allowed", "Policy explicitly allows connection")
        else
          match scanToPorts port toPorts with
          | some r => some r
          | Option.none => scanToEndpoints dest port toPorts rest
      else scanToEndpoints dest port toPorts rest

-- Loop `for egress in egress_rules` (lines 161-174).
def scanEgress (dest port : String) : List EgressRule → Option (String × String)
  | [] => Option.none
  | e :: rest =>
      match scanToEndpoints dest port e.toPorts e.toEndpoints with
      | some r => some r
      | Option.none => scanEgress dest port rest

-- Loop `for spec in specs` (lines 155-174).
def scanSpecs (src dest port : String) : List PolicySpec → Option (String × String)
  | [] => Option.none
  | s :: rest =>
      if specMatchesSrc src s then
        match scanEgress dest port s.egress with
        | some r => some r
        | Option.none => scanSpecs src dest port rest
      else scanSpecs src dest port rest

-- tester.py `_simulate_policy_enforcement(src, dest, port, cnp)` on a typed
-- document: returns the first allow produced by the scan, and otherwise the
-- default-deny pair of line 176.
def simulate_policy_enforcement (src dest port : String) (cnp : CNPDoc) :
    String × String :=
  (scanSpecs src dest port cnp.specs).getD
    ("blocked", "No policy rule allows this connection")

-- ## Connection extractor, typed (visualizer.py `_extract_connections`)

-- Python `x or "dflt"` on an optional string: `None` and the empty string
-- are falsy and fall back to the default.
def orStr (v : Option String) (dflt : String) : String :=
  match v with
  | some s => if s == "" then dflt else s
  | Option.none => dflt

structure Conn where
  src : String
  dest : String
  port : String
  protocol : String
  connection_type : String
  deriving DecidableEq

-- One connection per `toPorts[*].ports[*]` entry (lines 85-96):
-- `port_spec.get("port", "unknown")`, `port_spec.get("protocol", "TCP")`.
def connOfPortEntry (src dest : String) (ps : PortEntry) : Conn :=
  { src := src, dest := dest, port := ps.port.getD "unknown",
    protocol := ps.protocol.getD "TCP", connection_type := "egress" }

-- Per matching endpoint (lines 81-104): `endpoint.get("matchLabels",
-- {}).get("app") or "unknown-dest"`; without port rules a single wildcard
-- connection is emitted.
def connsOfEndpoint (src : String) (toPorts : List PortRule) (ep : LabelSelector) :
    List Conn :=
  let dest := orStr ep.app "unknown-dest"
  if !toPorts.isEmpty then
    toPorts.flatMap (fun pr => pr.ports.map (connOfPortEntry src dest))
  else
    [{ src := src, dest := dest, port := "any", protocol := "any",
       connection_type := "egress" }]

def connsOfEgress (src : String) (e : EgressRule) : List Conn :=
  e.toEndpoints.flatMap (connsOfEndpoint src e.toPorts)

-- Per spec (lines 70-104): `spec.get("endpointSelector", {})
-- .get("matchLabels", {}).get("app") or "unknown-source"`.  The Python loop
-- also skips a falsy (empty-mapping) spec, which contributes no connections
-- either way and has no typed counterpart.
def connsOfSpec (s : PolicySpec) : List Conn :=
  s.egress.flatMap (connsOfEgress (orStr s.endpointSelector.app "unknown-source"))

-- visualizer.py `_extract_connections` over the resolved spec list.
def extract_connections (specs : List PolicySpec) : List Conn :=
  specs.flatMap connsOfSpec

-- ## Rule extractor, typed (tester.py `_extract_rules`)

structure TRule where
  src : String
  dest : String
  port : Option String
  deriving DecidableEq

-- Per egress rule (lines 33-45): ports are flattened first
-- (`p.get("port")`, possibly Python `None`); each destination then yields
-- either a single `"any"` rule or one rule per collected port.
def trulesOfEgress (src : String) (e : EgressRule) : List TRule :=
  let ports := e.toPorts.flatMap (fun tp => tp.ports.map (fun p => p.port))
  e.toEndpoints.flatMap (fun d =>
    let dest := orStr d.app "unknown"
    if ports.isEmpty then [{ src := src, dest := dest, port := some "any" }]
    else ports.map (fun port => { src := src, dest := dest, port := port }))

-- tester.py `_extract_rules` over the resolved spec list: the source label
-- falls back to `"unknown"` (line 31).
def extract_rules (specs : List PolicySpec) : List TRule :=
  specs.flatMap (fun s =>
    s.egress.flatMap (trulesOfEgress (orStr s.endpointSelector.app "unknown")))

-- ## Converter (converter.py `convert_rules`)

-- A JSON port value: the input schema allows `port: int|string`;
-- `str(e["port"])` stringifies it.
inductive PortVal where
  | int (n : Int)
  | str (s : String)
  deriving DecidableEq

def PortVal.pyStr : PortVal → String
  | .int n => toString n
  | .str s => s

-- Python `str.upper()` restricted to ASCII, as used on protocol names.
def upperAscii (s : String) : String := String.mk (s.data.map Char.toUpper)

-- One flat firewall rule from firewall_rules.json; a missing key makes the
-- corresponding `r["key"]` access raise `KeyError`.
structure FlatRule where
  src : Option String
  dest : Option String
  port : Option PortVal
  proto : Option String
  deriving DecidableEq

-- Python `r[field]`: the value, or a KeyError naming the field.
def reqField {α : Type} (field : String) (v : Option α) : Except PyErr α :=
  match v with
  | some x => .ok x
  | Option.none => .error (.keyError field)

-- `defaultdict(list)` grouping by `r["src"]` with insertion order of first
-- occurrence preserved, as Python dicts do (lines 18-20).
def insertGrouped (s : String) (r : FlatRule) :
    List (String × List FlatRule) → List (String × List FlatRule)
  | [] => [(s, [r])]
  | (k, l) :: rest =>
      if k == s then (k, l ++ [r]) :: rest else (k, l) :: insertGrouped s r rest

def groupBySrc (acc : List (String × List FlatRule)) :
    List FlatRule → Except PyErr (List (String × List FlatRule))
  | [] => .ok acc
  | r :: rest =>
      match reqField "src" r.src with
      | .error e => .error e
      | .ok s => groupBySrc (insertGrouped s r acc) rest

-- One egress rule per grouped entry (lines 31-37): `e["dest"]`,
-- `str(e["port"])`, `e["proto"].upper()` in source order.
def mkEgress (e : FlatRule) : Except PyErr EgressRule :=
  match reqField "dest" e.dest with
  | .error err => .error err
  | .ok dest =>
      match reqField "port" e.port with
      | .error err => .error err
      | .ok port =>
          match reqField "proto" e.proto with
          | .error err => .error err
          | .ok proto =>
              .ok { toEndpoints := [{ matchLabels := [("app", dest)] }],
                    toPorts := [{ ports := [{ port := some port.pyStr,
                                              protocol := some (upperAscii proto) }] }] }

def mkEgressList : List FlatRule → Except PyErr (List EgressRule)
  | [] => .ok []
  | e :: rest =>
      match mkEgress e with
      | .error err => .error err
      | .ok x =>
          match mkEgressList rest with
          | .error err => .error err
          | .ok xs => .ok (x :: xs)

-- One PolicySpec per group (lines 29-41).
def mkSpecs : List (String × List FlatRule) → Except PyErr (List PolicySpec)
  | [] => .ok []
  | (src, entries) :: rest =>
      match mkEgressList entries with
      | .error err => .error err
      | .ok eg =>
          match mkSpecs rest with
          | .error err => .error err
          | .ok others =>
              .ok ({ endpointSelector := { matchLabels := [("app", src)] },
                     egress := eg } :: others)

-- converter.py `convert_rules` on an already-parsed rule list: builds the
-- fixed document header (lines 22-27) and the grouped specs; an exception
-- from a missing field propagates uncaught (the `try` in the source guards
-- only the file read).
def convert_rules (rules : List FlatRule) : Except PyErr CNPDoc :=
  match groupBySrc [] rules with
  | .error e => .error e
  | .ok grouped =>
      match mkSpecs grouped with
      | .error e => .error e
      | .ok specs =>
          .ok { apiVersion := "cilium.io/v2", kind := "CiliumNetworkPolicy",
                metadataName := "generated-policy", specs := specs }

-- ## Enforcement simulator, dynamic (tester.py `_simulate_policy_enforcement`)
--
-- The same function modelled over raw `Val` trees with full Python dynamic
-- semantics: every `.get` on a non-dict raises AttributeError and every
-- `for` over a non-iterable raises TypeError, surfaced in `Except`.

-- Loop `for port_spec in ports` over raw values.
def scanPortSpecsDyn (port : String) : List Val → Except PyErr (Option (String × String))
  | [] => .ok Option.none
  | ps :: rest =>
      match pyGetD ps "port" .vnone with
      | .error e => .error e
      | .ok pv =>
          if Val.eqStr pv port || port == "any" then
            .ok (some ("allowed", "Policy allows connection on port " ++ port))
          else scanPortSpecsDyn port rest

-- Loop `for port_rule in to_ports` over raw values.
def scanToPortsDyn (port : String) : List Val → Except PyErr (Option (String × String))
  | [] => .ok Option.none
  | pr :: rest =>
      match pyGetD pr "ports" (.list []) with
      | .error e => .error e
      | .ok ports =>
          match pyIter ports with
          | .error e => .error e
          | .ok pl =>
              match scanPortSpecsDyn port pl with
              | .error e => .error e
              | .ok (some r) => .ok (some r)
              | .ok Option.none => scanToPortsDyn port rest

-- Loop `for endpoint in to_endpoints` over raw values; `egress` is the
-- enclosing rule value, from which `toPorts` is fetched on a match.
def scanToEndpointsDyn (dest port : String) (egress : Val) :
    List Val → Except PyErr (Option (String × String))
  | [] => .ok Option.none
  | ep :: rest =>
      match pyGetD ep "matchLabels" (.dict []) with
      | .error e => .error e
      | .ok dl =>
          match pyGetD dl "app" .vnone with
          | .error e => .error e
          | .ok dapp =>
              if Val.eqStr dapp dest then
                match pyGetD egress "toPorts" (.list []) with
                | .error e => .error e
                | .ok tp =>
                    if !truthy tp then
                      .ok (some ("allowed", "Policy explicitly allows connection"))
                    else
                      match pyIter tp with
                      | .error e => .error e
                      | .ok tpl =>
                          match scanToPortsDyn port tpl with
                          | .error e => .error e
                          | .ok (some r) => .ok (some r)
                          | .ok Option.none => scanToEndpointsDyn dest port egress rest
              else scanToEndpointsDyn dest port egress rest

-- Loop `for egress in egress_rules` over raw values.
def scanEgressDyn (dest port : String) : List Val → Except PyErr (Option (String × String))
  | [] => .ok Option.none
  | eg :: rest =>
      match pyGetD eg "toEndpoints" (.list []) with
      | .error e => .error e
      | .ok te =>
          match pyIter te with
          | .error e => .error e
          | .ok tel =>
              match scanToEndpointsDyn dest port eg tel with
              | .error e => .error e
              | .ok (some r) => .ok (some r)
              | .ok Option.none => scanEgressDyn dest port rest

-- Loop `for spec in specs` over raw values.
def scanSpecsDyn (src dest port : String) : List Val → Except PyErr (Option (String × String))
  | [] => .ok Option.none
  | spec :: rest =>
      match pyGetD spec "endpointSelector" (.dict []) with
      | .error e => .error e
      | .ok es =>
          match pyGetD es "matchLabels" (.dict []) with
          | .error e => .error e
          | .ok sl =>
              match pyGetD sl "app" .vnone with
              | .error e => .error e
              | .ok sapp =>
                  if Val.eqStr sapp src then
                    match pyGetD spec "egress" (.list []) with
                    | .error e => .error e
                    | .ok eg =>
                        match pyIter eg with
                        | .error e => .error e
                        | .ok egl =>
                            match scanEgressDyn dest port egl with
                            | .error e => .error e
                            | .ok (some r) => .ok (some r)
                            | .ok Option.none => scanSpecsDyn src dest port rest
                  else scanSpecsDyn src dest port rest

-- `specs = cnp.get("specs") or cnp.get("spec") or []` (line 153): the
-- first truthy value wins, with short-circuit evaluation.
def resolveSpecsDyn (cnp : Val) : Except PyErr Val :=
  match pyGetD cnp "specs" .vnone with
  | .error e => .error e
  | .ok a =>
      if truthy a then .ok a
      else
        match pyGetD cnp "spec" .vnone with
        | .error e => .error e
        | .ok b => if truthy b then .ok b else .ok (.list [])

-- tester.py `_simulate_policy_enforcement(src, dest, port, cnp)` over a raw
-- parsed document, Python dynamic semantics included.
def simulateDyn (src dest port : String) (cnp : Val) : Except PyErr (String × String) :=
  match resolveSpecsDyn cnp with
  | .error e => .error e
  | .ok specsVal =>
      match pyIter specsVal with
      | .error e => .error e
      | .ok specsList =>
          match scanSpecsDyn src dest port specsList with
          | .error e => .error e
          | .ok (some r) => .ok r
          | .ok Option.none => .ok ("blocked", "No policy rule allows this connection")

-- ## Encoding typed documents as raw values
--
-- The canonical `Val` form of a typed document, used to relate the typed
-- simulator to the dynamic one.

def encPairs (l : List (String × String)) : Val :=
  .dict (l.map (fun kv => (kv.1, Val.str kv.2)))

def encSelector (s : LabelSelector) : Val :=
  .dict [("matchLabels", encPairs s.matchLabels)]

-- An absent `port`/`protocol` key is omitted, so `.get` yields `None`.
def encPortEntry (p : PortEntry) : Val :=
  .dict ((match p.port with
          | some s => [("port", Val.str s)]
          | Option.none => []) ++
         (match p.protocol with
          | some s => [("protocol", Val.str s)]
          | Option.none => []))

def encPortRule (pr : PortRule) : Val :=
  .dict [("ports", .list (pr.ports.map encPortEntry))]

def encEgress (e : EgressRule) : Val :=
  .dict [("toEndpoints", .list (e.toEndpoints.map encSelector)),
         ("toPorts", .list (e.toPorts.map encPortRule))]

def encSpec (s : PolicySpec) : Val :=
  .dict [("endpointSelector", encSelector s.endpointSelector),
         ("egress", .list (s.egress.map encEgress))]

def encDoc (c : CNPDoc) : Val :=
  .dict [("apiVersion", .str c.apiVersion), ("kind", .str c.kind),
         ("metadata", .dict [("name", .str c.metadataName)]),
         ("specs", .list (c.specs.map encSpec))]

-- The failing single-`spec` document of claim C4: structurally the same
-- policy as `exampleDocAB`, but under the `spec` key (a mapping), which the
-- repository's own schema and syntax validator accept.
def singleSpecDoc : Val :=
  .dict [("apiVersion", .str "cilium.io/v2"),
         ("kind", .str "CiliumNetworkPolicy"),
         ("metadata", .dict [("name", .str "demo")]),
         ("spec", .dict [("endpointSelector",
                          .dict [("matchLabels", .dict [("app", .str "frontend")])]),
                         ("egress",
                          .list [.dict [("toEndpoints",
                                         .list [.dict [("matchLabels",
                                                        .dict [("app", .str "backend")])]]),
                                        ("toPorts",
                                         .list [.dict [("ports",
                                                        .list [.dict [("port", .str "80"),
                                                                      ("protocol", .str "TCP")]])]])]])])]

-- ## Schema validator (validator.py `CILIUM_NETWORK_POLICY_SCHEMA`,
-- `validate_cilium_schema`)
--
-- The declarative JSON schema interpreted with Draft-7 semantics, one
-- checker per schema node, each returning a list of (path, message) pairs.
-- Keyword checks are independent (`type`, `required`, `properties`, `enum`,
-- `oneOf` each contribute their own errors; `required`/`properties` are
-- vacuous on non-objects), matching `Draft7Validator.iter_errors`.  The
-- message texts of the jsonschema library are abbreviated here and its
-- sort-by-path reordering is omitted: no claim depends on message wording
-- or error order, only on which errors exist.

def childPath (p k : String) : String :=
  if p == "root" then k else p ++ " -> " ++ k

def typeErrs (p what : String) : List (String × String) :=
  [(p, "is not of type " ++ pyq what)]

def checkStr (p : String) (v : Val) : List (String × String) :=
  match v with
  | .str _ => []
  | _ => typeErrs p "string"

def hasKey (d : List (String × Val)) (k : String) : Bool :=
  d.any (fun kv => kv.1 == k)

def reqErrs (p : String) (keys : List String) (d : List (String × Val)) :
    List (String × String) :=
  keys.flatMap (fun k =>
    if hasKey d k then [] else [(p, pyq k ++ " is a required property")])

def propErrs (p : String) (d : List (String × Val)) (k : String)
    (check : String → Val → List (String × String)) : List (String × String) :=
  match List.lookup k d with
  | some v => check (childPath p k) v
  | Option.none => []

-- `additionalProperties: false`: one error listing the unexpected keys.
def extraKeyErrs (p : String) (allowed : List String) (d : List (String × Val)) :
    List (String × String) :=
  if (d.map Prod.fst).all (fun k => allowed.contains k) then []
  else [(p, "Additional properties are not allowed")]

-- `{"type": "object", "additionalProperties": {"type": "string"}}`.
def checkStringMap (p : String) (v : Val) : List (String × String) :=
  match v with
  | .dict d =>
      d.flatMap (fun kv =>
        match kv.2 with
        | .str _ => []
        | _ => typeErrs (childPath p kv.1) "string")
  | _ => typeErrs p "object"

def checkItemsAux (p : String) (check : String → Val → List (String × String))
    (i : Nat) : List Val → List (String × String)
  | [] => []
  | v :: rest => check (childPath p (toString i)) v ++ checkItemsAux p check (i + 1) rest

def checkArrayOf (p : String) (check : String → Val → List (String × String))
    (v : Val) : List (String × String) :=
  match v with
  | .list l => checkItemsAux p check 0 l
  | _ => typeErrs p "array"

def checkStrArray (p : String) (v : Val) : List (String × String) :=
  checkArrayOf p checkStr v

def checkEnumStr (p : String) (options : List String) (v : Val) :
    List (String × String) :=
  if options.any (fun o => Val.eqStr v o) then []
  else [(p, "is not one of the allowed values")]

-- `matchExpressions` items: required key/operator, operator enum.
def checkMatchExprItem (p : String) (v : Val) : List (String × String) :=
  match v with
  | .dict d =>
      reqErrs p ["key", "operator"] d ++
      propErrs p d "key" checkStr ++
      propErrs p d "operator" (fun pp vv =>
        checkStr pp vv ++
        checkEnumStr pp ["In", "NotIn", "Exists", "DoesNotExist"] vv) ++
      propErrs p d "values" checkStrArray
  | _ => typeErrs p "object"

def checkLabelSelector (p : String) (v : Val) : List (String × String) :=
  match v with
  | .dict d =>
      propErrs p d "matchLabels" checkStringMap ++
      propErrs p d "matchExpressions"
        (fun pp vv => checkArrayOf pp checkMatchExprItem vv) ++
      extraKeyErrs p ["matchLabels", "matchExpressions"] d
  | _ => typeErrs p "object"

def checkIntRange (p : String) (v : Val) : List (String × String) :=
  match v with
  | .int n =>
      (if n < 1 then [(p, "is less than the minimum of 1")] else []) ++
      (if n > 65535 then [(p, "is greater than the maximum of 65535")] else [])
  | _ => typeErrs p "integer"

-- `port`: oneOf [string, integer 1..65535]; the branches are mutually
-- exclusive, so the valid-under-more-than-one case cannot arise here.
def checkPortValue (p : String) (v : Val) : List (String × String) :=
  match v with
  | .str _ => []
  | .int n =>
      if 1 ≤ n && n ≤ 65535 then []
      else [(p, "is not valid under any of the given schemas")]
  | _ => [(p, "is not valid under any of the given schemas")]

def checkPortItem (p : String) (v : Val) : List (String × String) :=
  match v with
  | .dict d =>
      reqErrs p ["port", "protocol"] d ++
      propErrs p d "port" checkPortValue ++
      propErrs p d "protocol" (fun pp vv =>
        checkStr pp vv ++
        checkEnumStr pp ["TCP", "UDP", "SCTP", "ICMP", "ICMPv6", "ANY"] vv) ++
      propErrs p d "endPort" checkIntRange
  | _ => typeErrs p "object"

def checkHttpItem (p : String) (v : Val) : List (String × String) :=
  match v with
  | .dict d =>
      propErrs p d "method" checkStr ++
      propErrs p d "path" checkStr ++
      propErrs p d "host" checkStr ++
      propErrs p d "headers" checkStrArray
  | _ => typeErrs p "object"

def checkKafkaItem (p : String) (v : Val) : List (String × String) :=
  match v with
  | .dict d =>
      propErrs p d "apiKey" checkStr ++
      propErrs p d "apiVersion" checkStr ++
      propErrs p d "clientID" checkStr ++
      propErrs p d "topic" checkStr
  | _ => typeErrs p "object"

def checkPortRuleRules (p : String) (v : Val) : List (String × String) :=
  match v with
  | .dict d =>
      propErrs p d "http" (fun pp vv => checkArrayOf pp checkHttpItem vv) ++
      propErrs p d "kafka" (fun pp vv => checkArrayOf pp checkKafkaItem vv)
  | _ => typeErrs p "object"

def checkPortRule (p : String) (v : Val) : List (String × String) :=
  match v with
  | .dict d =>
      propErrs p d "ports" (fun pp vv => checkArrayOf pp checkPortItem vv) ++
      propErrs p d "rules" checkPortRuleRules ++
      extraKeyErrs p ["ports", "rules"] d
  | _ => typeErrs p "object"

def checkCIDRSetItem (p : String) (v : Val) : List (String × String) :=
  match v with
  | .dict d =>
      reqErrs p ["cidr"] d ++
      propErrs p d "cidr" checkStr ++
      propErrs p d "except" checkStrArray
  | _ => typeErrs p "object"

def checkK8sService (p : String) (v : Val) : List (String × String) :=
  match v with
  | .dict d =>
      propErrs p d "serviceName" checkStr ++
      propErrs p d "namespace" checkStr
  | _ => typeErrs p "object"

def checkServiceItem (p : String) (v : Val) : List (String × String) :=
  match v with
  | .dict d => propErrs p d "k8sService" checkK8sService
  | _ => typeErrs p "object"

def checkFQDNItem (p : String) (v : Val) : List (String × String) :=
  match v with
  | .dict d =>
      propErrs p d "matchName" checkStr ++
      propErrs p d "matchPattern" checkStr
  | _ => typeErrs p "object"

def checkIngressRule (p : String) (v : Val) : List (String × String) :=
  match v with
  | .dict d =>
      propErrs p d "fromEndpoints" (fun pp vv => checkArrayOf pp checkLabelSelector vv) ++
      propErrs p d "fromRequires" (fun pp vv => checkArrayOf pp checkLabelSelector vv) ++
      propErrs p d "fromCIDR" checkStrArray ++
      propErrs p d "fromCIDRSet" (fun pp vv => checkArrayOf pp checkCIDRSetItem vv) ++
      propErrs p d "fromEntities" checkStrArray ++
      propErrs p d "toPorts" (fun pp vv => checkArrayOf pp checkPortRule vv) ++
      extraKeyErrs p ["fromEndpoints", "fromRequires", "fromCIDR", "fromCIDRSet",
                      "fromEntities", "toPorts"] d
  | _ => typeErrs p "object"

def checkEgressRule (p : String) (v : Val) : List (String × String) :=
  match v with
  | .dict d =>
      propErrs p d "toEndpoints" (fun pp vv => checkArrayOf pp checkLabelSelector vv) ++
      propErrs p d "toRequires" (fun pp vv => checkArrayOf pp checkLabelSelector vv) ++
      propErrs p d "toCIDR" checkStrArray ++
      propErrs p d "toCIDRSet" (fun pp vv => checkArrayOf pp checkCIDRSetItem vv) ++
      propErrs p d "toEntities" checkStrArray ++
      propErrs p d "toServices" (fun pp vv => checkArrayOf pp checkServiceItem vv) ++
      propErrs p d "toPorts" (fun pp vv => checkArrayOf pp checkPortRule vv) ++
      propErrs p d "toFQDNs" (fun pp vv => checkArrayOf pp checkFQDNItem vv) ++
      extraKeyErrs p ["toEndpoints", "toRequires", "toCIDR", "toCIDRSet",
                      "toEntities", "toServices", "toPorts", "toFQDNs"] d
  | _ => typeErrs p "object"

def checkIngressDenyRule (p : String) (v : Val) : List (String × String) :=
  match v with
  | .dict d =>
      propErrs p d "fromEndpoints" (fun pp vv => checkArrayOf pp checkLabelSelector vv) ++
      propErrs p d "fromCIDR" checkStrArray ++
      propErrs p d "fromEntities" checkStrArray ++
      propErrs p d "toPorts" (fun pp vv => checkArrayOf pp checkPortRule vv) ++
      extraKeyErrs p ["fromEndpoints", "fromCIDR", "fromEntities", "toPorts"] d
  | _ => typeErrs p "object"

def checkEgressDenyRule (p : String) (v : Val) : List (String × String) :=
  match v with
  | .dict d =>
      propErrs p d "toEndpoints" (fun pp vv => checkArrayOf pp checkLabelSelector vv) ++
      propErrs p d "toCIDR" checkStrArray ++
      propErrs p d "toEntities" checkStrArray ++
      propErrs p d "toPorts" (fun pp vv => checkArrayOf pp checkPortRule vv) ++
      extraKeyErrs p ["toEndpoints", "toCIDR", "toEntities", "toPorts"] d
  | _ => typeErrs p "object"

def checkPolicySpec (p : String) (v : Val) : List (String × String) :=
  match v with
  | .dict d =>
      propErrs p d "endpointSelector" checkLabelSelector ++
      propErrs p d "nodeSelector" checkLabelSelector ++
      propErrs p d "ingress" (fun pp vv => checkArrayOf pp checkIngressRule vv) ++
      propErrs p d "egress" (fun pp vv => checkArrayOf pp checkEgressRule vv) ++
      propErrs p d "ingressDeny" (fun pp vv => checkArrayOf pp checkIngressDenyRule vv) ++
      propErrs p d "egressDeny" (fun pp vv => checkArrayOf pp checkEgressDenyRule vv) ++
      extraKeyErrs p ["endpointSelector", "nodeSelector", "ingress", "egress",
                      "ingressDeny", "egressDeny"] d
  | _ => typeErrs p "object"

def alnumLower (c : Char) : Bool :=
  c.isDigit || ('a' ≤ c && c ≤ 'z')

-- The `metadata.name` pattern of the schema:
-- `^[a-z0-9]([a-z0-9\-]*[a-z0-9])?$` — first and last character lowercase
-- alphanumeric, hyphens allowed in between.  (Python `re` would also
-- tolerate one trailing newline via `$`; that corner is not modelled.)
def namePatternOk (s : String) : Bool :=
  match s.data with
  | [] => false
  | c :: rest =>
      match rest.reverse with
      | [] => alnumLower c
      | lc :: mid => alnumLower c && alnumLower lc &&
          mid.all (fun x => alnumLower x || x == '-')

def checkName (p : String) (v : Val) : List (String × String) :=
  checkStr p v ++
  (match v with
   | .str s => if namePatternOk s then [] else [(p, "does not match the required pattern")]
   | _ => [])

-- `metadata` has `additionalProperties: true`, so no extra-key check.
def checkMetadata (p : String) (v : Val) : List (String × String) :=
  match v with
  | .dict d =>
      reqErrs p ["name"] d ++
      propErrs p d "name" checkName ++
      propErrs p d "namespace" checkStr ++
      propErrs p d "labels" checkStringMap ++
      propErrs p d "annotations" checkStringMap
  | _ => typeErrs p "object"

-- Top-level `oneOf: [{required: [spec]}, {required: [specs]}]`: `required`
-- is vacuously satisfied by non-objects, and a document carrying both keys
-- satisfies both branches, which under Draft-7 `oneOf` is an error.
def oneOfSpecErrs (v : Val) : List (String × String) :=
  let b1 := match v with | .dict d => hasKey d "spec" | _ => true
  let b2 := match v with | .dict d => hasKey d "specs" | _ => true
  if b1 && b2 then [("root", "is valid under each of the given schemas")]
  else if !b1 && !b2 then [("root", "is not valid under any of the given schemas")]
  else []

def schemaErrs (v : Val) : List (String × String) :=
  (match v with
   | .dict d =>
       reqErrs "root" ["apiVersion", "kind", "metadata"] d ++
       propErrs "root" d "apiVersion" (fun p vv =>
         checkStr p vv ++ checkEnumStr p ["cilium.io/v2"] vv) ++
       propErrs "root" d "kind" (fun p vv =>
         checkStr p vv ++ checkEnumStr p ["CiliumNetworkPolicy"] vv) ++
       propErrs "root" d "metadata" checkMetadata ++
       propErrs "root" d "spec" checkPolicySpec ++
       propErrs "root" d "specs" (fun p vv => checkArrayOf p checkPolicySpec vv)
   | _ => typeErrs "root" "object") ++
  oneOfSpecErrs v

-- validator.py `validate_cilium_schema`: each violation is rendered as
-- `f"Schema validation error at '{path}': {error.message}"`.
def validate_cilium_schema (v : Val) : List String :=
  (schemaErrs v).map (fun e => "Schema validation error at " ++ pyq e.1 ++ ": " ++ e.2)

-- ## Suggestion pass (validator.py `generate_suggestions`)

-- The literal emitted when both `spec` and `specs` are present.
def bothSpecMsg : String :=
  "Use either " ++ pyq "spec" ++ " (single policy) or " ++ pyq "specs" ++
    " (multiple policies), not both"

-- `spec_name = f"spec[{i}]" if "specs" in data else "spec"`.
def specIndexName (hasSpecsKey : Bool) (i : Nat) : String :=
  if hasSpecsKey then "spec[" ++ toString i ++ "]" else "spec"

-- The per-spec advisory checks (lines 451-463), with Python evaluation
-- order: `"ingress" in spec` before `spec["ingress"]`, and so on.
def suggForSpec (name : String) (spec : Val) : Except PyErr (List String) := do
  let hasIng ← pyContains spec "ingress"
  let s1 ← if hasIng then do
      let v ← pyIndex spec "ingress"
      pure (if !truthy v then
              [name ++ ": Empty ingress rules - consider removing or adding rules"]
            else [])
    else pure []
  let hasEg ← pyContains spec "egress"
  let s2 ← if hasEg then do
      let v ← pyIndex spec "egress"
      pure (if !truthy v then
              [name ++ ": Empty egress rules - consider removing or adding rules"]
            else [])
    else pure []
  let hasSel ← pyContains spec "endpointSelector"
  let s3 := if !hasSel then
      [name ++ ": Missing endpointSelector - policies should target specific endpoints"]
    else []
  let es ← pyGetD spec "endpointSelector" (.dict [])
  let ml ← pyGetD es "matchLabels" .vnone
  let mx ← pyGetD es "matchExpressions" .vnone
  let s4 := if !truthy ml && !truthy mx then
      [name ++ ": Empty endpointSelector targets all pods - consider being more specific"]
    else []
  pure (s1 ++ s2 ++ s3 ++ s4)

-- `for i, spec in enumerate(specs)` with `if not spec: continue` — the
-- enumerate index advances for skipped items too.
def suggLoop (hasSpecsKey : Bool) (i : Nat) : List Val → Except PyErr (List String)
  | [] => .ok []
  | spec :: rest =>
      if truthy spec then
        match suggForSpec (specIndexName hasSpecsKey i) spec with
        | .error e => .error e
        | .ok s =>
            match suggLoop hasSpecsKey (i + 1) rest with
            | .error e => .error e
            | .ok srest => .ok (s ++ srest)
      else suggLoop hasSpecsKey (i + 1) rest

-- validator.py `generate_suggestions(data, validation_result)`; the second
-- parameter is never read by the source and is omitted here.  Returns `[]`
-- unless `data` is a mapping whose `kind` equals "CiliumNetworkPolicy";
-- `specs = data.get("specs", [data.get("spec")]) if data.get("specs") or
-- data.get("spec") else []` resolves the iterated spec list.
def generate_suggestions (data : Val) : Except PyErr (List String) :=
  match data with
  | .dict d =>
      if Val.eqStr ((List.lookup "kind" d).getD .vnone) "CiliumNetworkPolicy" then
        let hasSpecsKey := hasKey d "specs"
        let hasSpecKey := hasKey d "spec"
        let base := if hasSpecsKey && hasSpecKey then [bothSpecMsg] else []
        let specsGet := (List.lookup "specs" d).getD .vnone
        let specGet := (List.lookup "spec" d).getD .vnone
        let specsVal :=
          if truthy specsGet || truthy specGet then
            (if hasSpecsKey then specsGet else Val.list [specGet])
          else Val.list []
        match pyIter specsVal with
        | .error e => .error e
        | .ok items =>
            match suggLoop hasSpecsKey 0 items with
            | .error e => .error e
            | .ok more => .ok (base ++ more)
      else .ok []
  | _ => .ok []

-- ## ValidationResult and validate_policy (validator.py)

structure LintWarning where
  line : Nat
  column : Nat
  level : String
  message : String
  rule : String
  deriving DecidableEq

structure ValidationResult where
  is_valid : Bool
  yaml_syntax_errors : List String
  yaml_lint_warnings : List LintWarning
  schema_errors : List String
  suggestions : List String
  deriving DecidableEq

-- `ValidationResult.__init__`.
def ValidationResult.init : ValidationResult :=
  { is_valid := true, yaml_syntax_errors := [], yaml_lint_warnings := [],
    schema_errors := [], suggestions := [] }

def ValidationResult.add_yaml_syntax_error (r : ValidationResult) (e : String) :
    ValidationResult :=
  { r with is_valid := false, yaml_syntax_errors := r.yaml_syntax_errors ++ [e] }

def ValidationResult.add_yaml_lint_warning (r : ValidationResult) (w : LintWarning) :
    ValidationResult :=
  { r with yaml_lint_warnings := r.yaml_lint_warnings ++ [w] }

def ValidationResult.add_schema_error (r : ValidationResult) (e : String) :
    ValidationResult :=
  { r with is_valid := false, schema_errors := r.schema_errors ++ [e] }

def ValidationResult.add_suggestion (r : ValidationResult) (s : String) :
    ValidationResult :=
  { r with suggestions := r.suggestions ++ [s] }

-- The outcome of steps 1-3 of `validate_policy`, which live in file I/O:
-- the file is missing; `yaml.safe_load` (or the read) fails with one error
-- message; or it parses, with `lint_yaml_style` producing `lint` (yamllint
-- is an external tool, so its warnings are a parameter).
inductive ReadOutcome where
  | notFound
  | parseFailure (msg : String)
  | parsed (lint : List LintWarning) (data : Val)

-- validator.py `validate_policy` after the I/O boundary: syntax errors
-- short-circuit; otherwise lint warnings are recorded and, when the parsed
-- data is truthy, schema errors and suggestions are appended.  An exception
-- escaping `generate_suggestions` propagates (the source does not catch
-- it), so no ValidationResult is produced in that case.
def validate_policy (path : String) (outcome : ReadOutcome) :
    Except PyErr ValidationResult :=
  match outcome with
  | .notFound =>
      .ok (ValidationResult.init.add_yaml_syntax_error ("File not found: " ++ path))
  | .parseFailure msg =>
      .ok (ValidationResult.init.add_yaml_syntax_error msg)
  | .parsed lint data =>
      let r0 := lint.foldl ValidationResult.add_yaml_lint_warning ValidationResult.init
      if truthy data then
        let r1 := (validate_cilium_schema data).foldl ValidationResult.add_schema_error r0
        match generate_suggestions data with
        | .error e => .error e
        | .ok sugg => .ok (sugg.foldl ValidationResult.add_suggestion r1)
      else .ok r0

-- A schema-clean document carrying both `spec` and `specs` (claim C5).
def bothKeysSpecVal : Val :=
  .dict [("endpointSelector", .dict [("matchLabels", .dict [("app", .str "frontend")])])]

def bothKeysDict : List (String × Val) :=
  [("apiVersion", .str "cilium.io/v2"),
   ("kind", .str "CiliumNetworkPolicy"),
   ("metadata", .dict [("name", .str "demo")]),
   ("spec", bothKeysSpecVal),
   ("specs", .list [bothKeysSpecVal])]

def bothKeysDoc : Val := .dict bothKeysDict

-- ## Example documents used to instantiate the claim theorems

-- frontend may reach backend on port 80/TCP.
def exampleSpecAB : PolicySpec :=
  { endpointSelector := { matchLabels := [("app", "frontend")] },
    egress := [{ toEndpoints := [{ matchLabels := [("app", "backend")] }],
                 toPorts := [{ ports := [{ port := some "80",
                                           protocol := some "TCP" }] }] }] }

def exampleDocAB : CNPDoc :=
  { apiVersion := "cilium.io/v2", kind := "CiliumNetworkPolicy",
    metadataName := "generated-policy", specs := [exampleSpecAB] }

-- frontend may reach db on any port: the matched rule has no `toPorts`.
def exampleDocWildcard : CNPDoc :=
  { apiVersion := "cilium.io/v2", kind := "CiliumNetworkPolicy",
    metadataName := "generated-policy",
    specs := [{ endpointSelector := { matchLabels := [("app", "frontend")] },
                egress := [{ toEndpoints := [{ matchLabels := [("app", "db")] }],
                             toPorts := [] }] }] }

-- a may reach b, but the rule has a `toPorts` entry whose `ports` list is
-- empty, so the inner port loop never runs.
def exampleDocEmptyPorts : CNPDoc :=
  { apiVersion := "cilium.io/v2", kind := "CiliumNetworkPolicy",
    metadataName := "generated-policy",
    specs := [{ endpointSelector := { matchLabels := [("app", "a")] },
                egress := [{ toEndpoints := [{ matchLabels := [("app", "b")] }],
                             toPorts := [{ ports := [] }] }] }] }

-- A spec with neither a source `app` label nor a destination `app` label.
def examplePartialSpec : PolicySpec :=
  { endpointSelector := { matchLabels := [] },
    egress := [{ toEndpoints := [{ matchLabels := [] }], toPorts := [] }] }

-- The single input rule of the round-trip property.
def c6InputRule : FlatRule :=
  { src := some "frontend", dest := some "backend",
    port := some (.int 80), proto := some "tcp" }

end CiliTest

namespace CiliTest

-- ## Scan lemmas for the typed simulator

theorem scanPortSpecs_isSome (port : String) (l : List PortEntry) :
    (scanPortSpecs port l).isSome = l.any (portEntryAdmits port) := by
  induction l with
  | nil => rfl
  | cons ps rest ih =>
      by_cases h : portEntryAdmits port ps
      · simp [scanPortSpecs, h]
      · simp [scanPortSpecs, h, ih]

theorem scanToPorts_isSome (port : String) (l : List PortRule) :
    (scanToPorts port l).isSome = l.any (fun pr => pr.ports.any (portEntryAdmits port)) := by
  induction l with
  | nil => rfl
  | cons pr rest ih =>
      cases h : scanPortSpecs port pr.ports with
      | none =>
          have := scanPortSpecs_isSome port pr.ports
          rw [h] at this
          simp [scanToPorts, h, ih, ← this]
      | some r =>
          have := scanPortSpecs_isSome port pr.ports
          rw [h] at this
          simp [scanToPorts, h, ← this]

theorem scanToEndpoints_isSome (dest port : String) (tps : List PortRule)
    (l : List LabelSelector) :
    (scanToEndpoints dest port tps l).isSome =
      (l.any (endpointMatchesDest dest) && toPortsAdmit port tps) := by
  induction l with
  | nil => rfl
  | cons ep rest ih =>
      by_cases h : endpointMatchesDest dest ep
      · by_cases he : tps.isEmpty
        · simp [scanToEndpoints, h, he, toPortsAdmit]
        · cases hs : scanToPorts port tps with
          | none =>
              have := scanToPorts_isSome port tps
              rw [hs] at this
              simp [scanToEndpoints, h, he, hs, ih, toPortsAdmit, ← this]
          | some r =>
              have := scanToPorts_isSome port tps
              rw [hs] at this
              simp [scanToEndpoints, h, he, hs, toPortsAdmit, ← this]
      · simp [scanToEndpoints, h, ih]

theorem scanEgress_isSome (dest port : String) (l : List EgressRule) :
    (scanEgress dest port l).isSome =
      l.any (fun e => ruleMatchesDest dest e && toPortsAdmit port e.toPorts) := by
  induction l with
  | nil => rfl
  | cons e rest ih =>
      cases h : scanToEndpoints dest port e.toPorts e.toEndpoints with
      | none =>
          have := scanToEndpoints_isSome dest port e.toPorts e.toEndpoints
          rw [h] at this
          simp [scanEgress, h, ih, ruleMatchesDest, ← this]
      | some r =>
          have := scanToEndpoints_isSome dest port e.toPorts e.toEndpoints
          rw [h] at this
          simp [scanEgress, h, ruleMatchesDest, ← this]

theorem scanSpecs_isSome (src dest port : String) (l : List PolicySpec) :
    (scanSpecs src dest port l).isSome =
      l.any (fun s =>
        specMatchesSrc src s &&
        s.egress.any (fun e => ruleMatchesDest dest e && toPortsAdmit port e.toPorts)) := by
  induction l with
  | nil => rfl
  | cons s rest ih =>
      by_cases h : specMatchesSrc src s
      · cases hg : scanEgress dest port s.egress with
        | none =>
            have := scanEgress_isSome dest port s.egress
            rw [hg] at this
            simp [scanSpecs, h, hg, ih, ← this]
        | some r =>
            have := scanEgress_isSome dest port s.egress
            rw [hg] at this
            simp [scanSpecs, h, hg, ← this]
      · simp [scanSpecs, h, ih]

theorem scanPortSpecs_fst (port : String) (l : List PortEntry) (r : String × String)
    (h : scanPortSpecs port l = some r) : r.1 = "allowed" := by
  induction l with
  | nil => exact absurd h (by simp [scanPortSpecs])
  | cons ps rest ih =>
      by_cases hc : portEntryAdmits port ps
      · simp only [scanPortSpecs, hc, if_true] at h
        cases h; rfl
      · simp only [scanPortSpecs, hc, if_false] at h
        exact ih h

theorem scanToPorts_fst (port : String) (l : List PortRule) (r : String × String)
    (h : scanToPorts port l = some r) : r.1 = "allowed" := by
  induction l with
  | nil => exact absurd h (by simp [scanToPorts])
  | cons pr rest ih =>
      cases hs : scanPortSpecs port pr.ports with
      | none =>
          simp only [scanToPorts, hs] at h
          exact ih h
      | some x =>
          simp only [scanToPorts, hs] at h
          cases h
          exact scanPortSpecs_fst port pr.ports _ hs

theorem scanToEndpoints_fst (dest port : String) (tps : List PortRule)
    (l : List LabelSelector) (r : String × String)
    (h : scanToEndpoints dest port tps l = some r) : r.1 = "allowed" := by
  induction l with
  | nil => exact absurd h (by simp [scanToEndpoints])
  | cons ep rest ih =>
      by_cases hm : endpointMatchesDest dest ep
      · by_cases he : tps.isEmpty
        · simp only [scanToEndpoints, hm, he, if_true] at h
          cases h; rfl
        · simp only [scanToEndpoints, hm, he, if_true, if_false] at h
          cases hs : scanToPorts port tps with
          | none => rw [hs] at h; exact ih h
          | some x =>
              rw [hs] at h
              cases h
              exact scanToPorts_fst port tps _ hs
      · simp only [scanToEndpoints, hm, if_false] at h
        exact ih h

theorem scanEgress_fst (dest port : String) (l : List EgressRule) (r : String × String)
    (h : scanEgress dest port l = some r) : r.1 = "allowed" := by
  induction l with
  | nil => exact absurd h (by simp [scanEgress])
  | cons e rest ih =>
      cases hs : scanToEndpoints dest port e.toPorts e.toEndpoints with
      | none =>
          simp only [scanEgress, hs] at h
          exact ih h
      | some x =>
          simp only [scanEgress, hs] at h
          cases h
          exact scanToEndpoints_fst dest port e.toPorts e.toEndpoints _ hs

theorem scanSpecs_fst (src dest port : String) (l : List PolicySpec) (r : String × String)
    (h : scanSpecs src dest port l = some r) : r.1 = "allowed" := by
  induction l with
  | nil => exact absurd h (by simp [scanSpecs])
  | cons s rest ih =>
      by_cases hm : specMatchesSrc src s
      · simp only [scanSpecs, hm, if_true] at h
        cases hg : scanEgress dest port s.egress with
        | none => rw [hg] at h; exact ih h
        | some x =>
            rw [hg] at h
            cases h
            exact scanEgress_fst dest port s.egress _ hg
      · simp only [scanSpecs, hm, if_false] at h
        exact ih h

theorem simulate_allowed_iff (src dest port : String) (cnp : CNPDoc) :
    (simulate_policy_enforcement src dest port cnp).1 = "allowed" ↔
      docAllows src dest port cnp = true := by
  unfold simulate_policy_enforcement docAllows
  cases h : scanSpecs src dest port cnp.specs with
  | none =>
      have hi := scanSpecs_isSome src dest port cnp.specs
      rw [h] at hi
      simp only [Option.getD]
      constructor
      · intro hc; exact absurd hc (by decide)
      · intro hc; rw [← hi] at hc; exact absurd hc (by simp)
  | some r =>
      have hi := scanSpecs_isSome src dest port cnp.specs
      rw [h] at hi
      simp only [Option.getD]
      constructor
      · intro _; exact hi.symm
      · intro _; exact scanSpecs_fst src dest port cnp.specs r h

theorem simulate_blocked_of_not_allows (src dest port : String) (cnp : CNPDoc)
    (h : docAllows src dest port cnp = false) :
    simulate_policy_enforcement src dest port cnp =
      ("blocked", "No policy rule allows this connection") := by
  unfold simulate_policy_enforcement
  cases hs : scanSpecs src dest port cnp.specs with
  | none => rfl
  | some r =>
      have hi := scanSpecs_isSome src dest port cnp.specs
      rw [hs] at hi
      unfold docAllows at h
      rw [← hi] at h
      exact absurd h (by simp)

end CiliTest

namespace CiliTest

-- ## Extractor lemmas

theorem connsOfEndpoint_src (src : String) (tps : List PortRule)
    (ep : LabelSelector) (c : Conn) (h : c ∈ connsOfEndpoint src tps ep) :
    c.src = src := by
  unfold connsOfEndpoint at h
  cases he : tps.isEmpty with
  | true =>
      rw [he] at h
      simp at h
      subst h
      rfl
  | false =>
      rw [he] at h
      simp at h
      obtain ⟨pr, hpr, ps, hps, hc⟩ := h
      subst hc
      rfl

theorem connsOfEndpoint_dest (src : String) (tps : List PortRule)
    (ep : LabelSelector) (c : Conn) (h : c ∈ connsOfEndpoint src tps ep) :
    c.dest = orStr ep.app "unknown-dest" := by
  unfold connsOfEndpoint at h
  cases he : tps.isEmpty with
  | true =>
      rw [he] at h
      simp at h
      subst h
      rfl
  | false =>
      rw [he] at h
      simp at h
      obtain ⟨pr, hpr, ps, hps, hc⟩ := h
      subst hc
      rfl

theorem connsOfEgress_src (src : String) (e : EgressRule) (c : Conn)
    (h : c ∈ connsOfEgress src e) : c.src = src := by
  unfold connsOfEgress at h
  simp only [List.mem_flatMap] at h
  obtain ⟨ep, _, hc⟩ := h
  exact connsOfEndpoint_src src e.toPorts ep c hc

theorem connsOfSpec_src (s : PolicySpec) (c : Conn) (h : c ∈ connsOfSpec s) :
    c.src = orStr s.endpointSelector.app "unknown-source" := by
  unfold connsOfSpec at h
  simp only [List.mem_flatMap] at h
  obtain ⟨e, _, hc⟩ := h
  exact connsOfEgress_src _ e c hc

theorem trulesOfEgress_src (src : String) (e : EgressRule) (r : TRule)
    (h : r ∈ trulesOfEgress src e) : r.src = src := by
  unfold trulesOfEgress at h
  simp only [List.mem_flatMap] at h
  obtain ⟨d, hd, hr⟩ := h
  cases hp : (e.toPorts.flatMap (fun tp => tp.ports.map (fun p => p.port))).isEmpty with
  | true =>
      rw [hp] at hr
      simp at hr
      subst hr
      rfl
  | false =>
      rw [hp] at hr
      simp at hr
      obtain ⟨p, hpm, hrr⟩ := hr
      subst hrr
      rfl

-- ## Claim theorems for the simulator

/-- Claim C1 (confirmed): default-deny.  For every typed policy document and
candidate triple for which no PolicySpec/egress-rule pair matches — no spec
whose `endpointSelector.matchLabels.app` equals `src` having an egress rule
with a `toEndpoints` entry whose `app` label equals `dest` and whose port
restriction admits `port` — the simulator returns the blocked status with
reason string "No policy rule allows this connection". -/
theorem C1_default_deny (src dest port : String) (cnp : CNPDoc)
    (h : ¬ ∃ s ∈ cnp.specs, specMatchesSrc src s = true ∧
          ∃ e ∈ s.egress, ruleMatchesDest dest e = true ∧
            toPortsAdmit port e.toPorts = true) :
    simulate_policy_enforcement src dest port cnp =
      ("blocked", "No policy rule allows this connection") := by
  cases hb : docAllows src dest port cnp with
  | false => exact simulate_blocked_of_not_allows src dest port cnp hb
  | true =>
      exfalso
      apply h
      unfold docAllows at hb
      simp only [List.any_eq_true, Bool.and_eq_true] at hb
      obtain ⟨s, hs, hm, e, he, hd, hp⟩ := hb
      exact ⟨s, hs, hm, e, he, hd, hp⟩

/-- Claim C1 witness: a concrete unmatched triple (frontend → db on 80
against a frontend → backend:80 policy) is blocked with the default-deny
reason. -/
theorem C1_default_deny_witness :
    (¬ ∃ s ∈ exampleDocAB.specs, specMatchesSrc "frontend" s = true ∧
        ∃ e ∈ s.egress, ruleMatchesDest "db" e = true ∧
          toPortsAdmit "80" e.toPorts = true) ∧
    simulate_policy_enforcement "frontend" "db" "80" exampleDocAB =
      ("blocked", "No policy rule allows this connection") :=
  ⟨by decide, C1_default_deny "frontend" "db" "80" exampleDocAB (by decide)⟩

/-- Claim C2 (confirmed): wildcard port subsumption.  Whenever some spec
matches `src` and one of its egress rules matches `dest` with an empty (or
absent, which the `.get("toPorts", [])` default makes empty) `toPorts`
list, the simulator returns the allowed status for every candidate port. -/
theorem C2_wildcard_subsumption (src dest port : String) (cnp : CNPDoc)
    (h : ∃ s ∈ cnp.specs, specMatchesSrc src s = true ∧
          ∃ e ∈ s.egress, ruleMatchesDest dest e = true ∧ e.toPorts = []) :
    (simulate_policy_enforcement src dest port cnp).1 = "allowed" := by
  rw [simulate_allowed_iff]
  unfold docAllows
  simp only [List.any_eq_true, Bool.and_eq_true]
  obtain ⟨s, hs, hm, e, he, hd, hp⟩ := h
  exact ⟨s, hs, hm, e, he, hd, by simp [toPortsAdmit, hp]⟩

/-- Claim C2 witness: the wildcard rule frontend → db with no `toPorts`
allows an arbitrary concrete port. -/
theorem C2_wildcard_subsumption_witness :
    (∃ s ∈ exampleDocWildcard.specs, specMatchesSrc "frontend" s = true ∧
        ∃ e ∈ s.egress, ruleMatchesDest "db" e = true ∧ e.toPorts = []) ∧
    (simulate_policy_enforcement "frontend" "db" "12345" exampleDocWildcard).1 =
      "allowed" :=
  ⟨by decide,
   C2_wildcard_subsumption "frontend" "db" "12345" exampleDocWildcard (by decide)⟩

/-- Claim C3 counterexample: the claim as stated is false.  In
`exampleDocEmptyPorts` a spec/egress-rule pair matches ("a", "b") and the
rule does have `toPorts` entries, and the candidate port is the wildcard
"any", so the claim asserts the simulator returns Allowed; the code returns
Blocked, because the wildcard test `port == "any"` sits inside the loop
over `ports` entries, of which there are none. -/
theorem C3_port_match_counterexample :
    (∃ s ∈ exampleDocEmptyPorts.specs, specMatchesSrc "a" s = true ∧
        ∃ e ∈ s.egress, ruleMatchesDest "b" e = true ∧ e.toPorts ≠ []) ∧
    "any" = "any" ∧
    simulate_policy_enforcement "a" "b" "any" exampleDocEmptyPorts =
      ("blocked", "No policy rule allows this connection") := by
  refine ⟨by decide, rfl, by decide⟩

/-- Claim C3 (corrected): when every spec/egress-rule pair matching `src`
and `dest` has a non-empty `toPorts` list, the simulator returns Allowed if
and only if some matching pair lists a `toPorts[*].ports[*]` entry whose
`port` equals the candidate port, or the candidate port is the wildcard
"any" and some matching pair lists at least one `ports` entry (the wildcard
is tested per listed entry, so it does not fire when every `ports` list is
empty); first matching allow wins. -/
theorem C3_port_match_amended (src dest port : String) (cnp : CNPDoc)
    (h : ∀ s ∈ cnp.specs, specMatchesSrc src s = true →
          ∀ e ∈ s.egress, ruleMatchesDest dest e = true → e.toPorts ≠ []) :
    ((simulate_policy_enforcement src dest port cnp).1 = "allowed" ↔
      ∃ s ∈ cnp.specs, specMatchesSrc src s = true ∧
        ∃ e ∈ s.egress, ruleMatchesDest dest e = true ∧
          ∃ pr ∈ e.toPorts, ∃ ps ∈ pr.ports, portEntryAdmits port ps = true) := by
  rw [simulate_allowed_iff]
  unfold docAllows
  simp only [List.any_eq_true, Bool.and_eq_true]
  constructor
  · rintro ⟨s, hs, hm, e, he, hd, hp⟩
    refine ⟨s, hs, hm, e, he, hd, ?_⟩
    have hne := h s hs hm e he hd
    unfold toPortsAdmit at hp
    rw [Bool.or_eq_true] at hp
    cases hp with
    | inl h0 => exact absurd (List.isEmpty_iff.mp h0) hne
    | inr h1 => simpa [List.any_eq_true] using h1
  · rintro ⟨s, hs, hm, e, he, hd, pr, hpr, ps, hps, ha⟩
    refine ⟨s, hs, hm, e, he, hd, ?_⟩
    unfold toPortsAdmit
    rw [Bool.or_eq_true]
    right
    simp only [List.any_eq_true]
    exact ⟨pr, hpr, ps, hps, ha⟩

/-- Claim C3 witness: the amended equivalence instantiated at the concrete
frontend → backend:80 document and candidate port 80. -/
theorem C3_port_match_amended_witness :
    (∀ s ∈ exampleDocAB.specs, specMatchesSrc "frontend" s = true →
        ∀ e ∈ s.egress, ruleMatchesDest "backend" e = true → e.toPorts ≠ []) ∧
    ((simulate_policy_enforcement "frontend" "backend" "80" exampleDocAB).1 =
        "allowed" ↔
      ∃ s ∈ exampleDocAB.specs, specMatchesSrc "frontend" s = true ∧
        ∃ e ∈ s.egress, ruleMatchesDest "backend" e = true ∧
          ∃ pr ∈ e.toPorts, ∃ ps ∈ pr.ports, portEntryAdmits "80" ps = true) :=
  ⟨by decide, C3_port_match_amended "frontend" "backend" "80" exampleDocAB (by decide)⟩

/-- Claim C6 (confirmed): round-trip grouping.  Converting the single flat
rule frontend → backend, port 80, proto tcp yields a document with exactly
one PolicySpec selecting app frontend, whose one egress rule targets app
backend on the stringified port "80" with upper-cased protocol "TCP"; and
extracting connections from that output reproduces exactly the one
connection (frontend, backend, "80", "TCP"). -/
theorem C6_roundtrip :
    convert_rules [c6InputRule] =
      .ok { apiVersion := "cilium.io/v2", kind := "CiliumNetworkPolicy",
            metadataName := "generated-policy",
            specs := [{ endpointSelector := { matchLabels := [("app", "frontend")] },
                        egress := [{ toEndpoints := [{ matchLabels := [("app", "backend")] }],
                                     toPorts := [{ ports := [{ port := some "80",
                                                               protocol := some "TCP" }] }] }] }] } ∧
    extract_connections
        [{ endpointSelector := { matchLabels := [("app", "frontend")] },
           egress := [{ toEndpoints := [{ matchLabels := [("app", "backend")] }],
                        toPorts := [{ ports := [{ port := some "80",
                                                  protocol := some "TCP" }] }] }] }] =
      [{ src := "frontend", dest := "backend", port := "80", protocol := "TCP",
         connection_type := "egress" }] := by
  constructor
  · decide
  · rfl

/-- Claim C7 counterexample: the claim as stated is false.  On a spec with
no `app` labels at all, the connection extractor of visualizer.py uses the
literals "unknown-source" and "unknown-dest", not "unknown". -/
theorem C7_unknown_counterexample :
    (extract_connections [examplePartialSpec]).map Conn.src = ["unknown-source"] ∧
    (extract_connections [examplePartialSpec]).map Conn.dest = ["unknown-dest"] ∧
    "unknown-source" ≠ "unknown" ∧ "unknown-dest" ≠ "unknown" := by
  refine ⟨rfl, rfl, by decide, by decide⟩

/-- Claim C7 (corrected): the connection extractor never fails on partial
documents and falls back to fixed literals, but those literals are
"unknown-source" for a missing source `app` label and "unknown-dest" for a
missing destination `app` label; only the rule extractor of tester.py uses
the literal "unknown". -/
theorem C7_unknown_amended :
    (∀ (sel : LabelSelector) (egs : List EgressRule) (c : Conn),
        c ∈ extract_connections [{ endpointSelector := sel, egress := egs }] →
        sel.app = Option.none → c.src = "unknown-source") ∧
    (∀ (sel epSel : LabelSelector) (tps : List PortRule) (c : Conn),
        c ∈ extract_connections
            [{ endpointSelector := sel, egress := [{ toEndpoints := [epSel], toPorts := tps }] }] →
        epSel.app = Option.none → c.dest = "unknown-dest") ∧
    (∀ (sel : LabelSelector) (egs : List EgressRule) (r : TRule),
        r ∈ extract_rules [{ endpointSelector := sel, egress := egs }] →
        sel.app = Option.none → r.src = "unknown") := by
  refine ⟨?_, ?_, ?_⟩
  · intro sel egs c hc happ
    have h1 : c ∈ connsOfSpec { endpointSelector := sel, egress := egs } := by
      simpa [extract_connections] using hc
    have := connsOfSpec_src _ c h1
    rw [this, happ]
    rfl
  · intro sel epSel tps c hc happ
    have h1 : c ∈ connsOfEndpoint
        (orStr sel.app "unknown-source") tps epSel := by
      simpa [extract_connections, connsOfSpec, connsOfEgress] using hc
    have := connsOfEndpoint_dest _ tps epSel c h1
    rw [this, happ]
    rfl
  · intro sel egs r hr happ
    have h1 : ∃ e ∈ egs, r ∈ trulesOfEgress (orStr sel.app "unknown") e := by
      simpa [extract_rules, List.mem_flatMap] using hr
    obtain ⟨e, _, hre⟩ := h1
    have := trulesOfEgress_src _ e r hre
    rw [this, happ]
    rfl

/-- Claim C7 witness: the amended fallback literals observed on the concrete
partial spec. -/
theorem C7_unknown_amended_witness :
    ({ src := "unknown-source", dest := "unknown-dest", port := "any",
       protocol := "any", connection_type := "egress" } : Conn).src =
        "unknown-source" ∧
    ({ src := "unknown-source", dest := "unknown-dest", port := "any",
       protocol := "any", connection_type := "egress" } : Conn).dest =
        "unknown-dest" ∧
    ({ src := "unknown", dest := "unknown", port := some "any" } : TRule).src =
        "unknown" :=
  ⟨C7_unknown_amended.1 { matchLabels := [] } [{ toEndpoints := [{ matchLabels := [] }], toPorts := [] }] _ (by decide) rfl,
   C7_unknown_amended.2.1 { matchLabels := [] } { matchLabels := [] } [] _ (by decide) rfl,
   C7_unknown_amended.2.2 { matchLabels := [] } [{ toEndpoints := [{ matchLabels := [] }], toPorts := [] }] _ (by decide) rfl⟩

end CiliTest

namespace CiliTest

-- ## Converter lemmas

theorem groupBySrc_error (rules : List FlatRule) :
    ∀ acc e, groupBySrc acc rules = .error e → e = .keyError "src" := by
  induction rules with
  | nil => intro acc e h; exact absurd h (by simp [groupBySrc])
  | cons r rest ih =>
      intro acc e h
      unfold groupBySrc at h
      cases hs : r.src with
      | none =>
          rw [hs] at h
          simp [reqField] at h
          rw [← h]
      | some s =>
          rw [hs] at h
          simp only [reqField] at h
          exact ih _ e h

theorem groupBySrc_ok_src (rules : List FlatRule) :
    ∀ acc g, groupBySrc acc rules = .ok g → ∀ r ∈ rules, r.src ≠ Option.none := by
  induction rules with
  | nil => intro acc g _ r hr; exact absurd hr (by simp)
  | cons r0 rest ih =>
      intro acc g h r hr
      unfold groupBySrc at h
      cases hs : r0.src with
      | none =>
          rw [hs] at h
          exact absurd h (by simp [reqField])
      | some s =>
          rw [hs] at h
          simp only [reqField] at h
          cases List.mem_cons.mp hr with
          | inl he => rw [he, hs]; simp
          | inr hm => exact ih _ g h r hm

theorem insertGrouped_self (s : String) (r : FlatRule)
    (g : List (String × List FlatRule)) :
    ∃ q ∈ insertGrouped s r g, r ∈ q.2 := by
  induction g with
  | nil => exact ⟨(s, [r]), by simp [insertGrouped], by simp⟩
  | cons p rest ih =>
      obtain ⟨k, l⟩ := p
      by_cases hk : (k == s) = true
      · refine ⟨(k, l ++ [r]), ?_, by simp⟩
        simp [insertGrouped, hk]
      · obtain ⟨q, hq, hrq⟩ := ih
        refine ⟨q, ?_, hrq⟩
        simp only [insertGrouped, hk, if_false]
        exact List.mem_cons_of_mem _ hq

theorem insertGrouped_mem (s : String) (r : FlatRule)
    (g : List (String × List FlatRule)) (p : String × List FlatRule)
    (x : FlatRule) (hp : p ∈ g) (hx : x ∈ p.2) :
    ∃ q ∈ insertGrouped s r g, x ∈ q.2 := by
  induction g with
  | nil => exact absurd hp (by simp)
  | cons p0 rest ih =>
      obtain ⟨k, l⟩ := p0
      by_cases hk : (k == s) = true
      · cases List.mem_cons.mp hp with
        | inl he =>
            refine ⟨(k, l ++ [r]), by simp [insertGrouped, hk], ?_⟩
            rw [he] at hx
            simp only [List.mem_append]
            exact Or.inl hx
        | inr hm =>
            refine ⟨p, ?_, hx⟩
            simp only [insertGrouped, hk, if_true]
            exact List.mem_cons_of_mem _ hm
      · cases List.mem_cons.mp hp with
        | inl he =>
            refine ⟨(k, l), ?_, by rw [← he]; exact hx⟩
            simp [insertGrouped, hk]
        | inr hm =>
            obtain ⟨q, hq, hxq⟩ := ih hm
            refine ⟨q, ?_, hxq⟩
            simp only [insertGrouped, hk, if_false]
            exact List.mem_cons_of_mem _ hq

theorem groupBySrc_mem (rules : List FlatRule) :
    ∀ acc g, groupBySrc acc rules = .ok g →
      (∀ p ∈ acc, ∀ x ∈ p.2, ∃ q ∈ g, x ∈ q.2) ∧
      (∀ r ∈ rules, ∃ q ∈ g, r ∈ q.2) := by
  induction rules with
  | nil =>
      intro acc g h
      have : acc = g := by simpa [groupBySrc] using h
      subst this
      exact ⟨fun p hp x hx => ⟨p, hp, hx⟩, fun r hr => absurd hr (by simp)⟩
  | cons r0 rest ih =>
      intro acc g h
      unfold groupBySrc at h
      cases hs : r0.src with
      | none =>
          rw [hs] at h
          exact absurd h (by simp [reqField])
      | some s =>
          rw [hs] at h
          simp only [reqField] at h
          have hacc := (ih _ g h).1
          constructor
          · intro p hp x hx
            obtain ⟨q, hq, hxq⟩ := insertGrouped_mem s r0 acc p x hp hx
            exact hacc q hq x hxq
          · intro r hr
            cases List.mem_cons.mp hr with
            | inl he =>
                obtain ⟨q, hq, hrq⟩ := insertGrouped_self s r0 acc
                rw [he]
                exact hacc q hq r0 hrq
            | inr hm => exact (ih _ g h).2 r hm

theorem mkEgress_error (e : FlatRule) (err : PyErr) (h : mkEgress e = .error err) :
    err = .keyError "dest" ∨ err = .keyError "port" ∨ err = .keyError "proto" := by
  unfold mkEgress at h
  cases hd : e.dest with
  | none =>
      rw [hd] at h
      simp [reqField] at h
      exact Or.inl h.symm
  | some d =>
      rw [hd] at h
      simp only [reqField] at h
      cases hp : e.port with
      | none =>
          rw [hp] at h
          simp [reqField] at h
          exact Or.inr (Or.inl h.symm)
      | some p =>
          rw [hp] at h
          simp only [reqField] at h
          cases hq : e.proto with
          | none =>
              rw [hq] at h
              simp [reqField] at h
              exact Or.inr (Or.inr h.symm)
          | some q =>
              rw [hq] at h
              exact absurd h (by simp [reqField])

theorem mkEgress_ok_fields (e : FlatRule) (x : EgressRule) (h : mkEgress e = .ok x) :
    e.dest ≠ Option.none ∧ e.port ≠ Option.none ∧ e.proto ≠ Option.none := by
  unfold mkEgress at h
  cases hd : e.dest with
  | none => rw [hd] at h; exact absurd h (by simp [reqField])
  | some d =>
      rw [hd] at h
      simp only [reqField] at h
      cases hp : e.port with
      | none => rw [hp] at h; exact absurd h (by simp [reqField])
      | some p =>
          rw [hp] at h
          simp only [reqField] at h
          cases hq : e.proto with
          | none => rw [hq] at h; exact absurd h (by simp [reqField])
          | some q => exact ⟨by simp [hd], by simp [hp], by simp [hq]⟩

theorem mkEgressList_error (l : List FlatRule) :
    ∀ err, mkEgressList l = .error err → ∃ e ∈ l, mkEgress e = .error err := by
  induction l with
  | nil => intro err h; exact absurd h (by simp [mkEgressList])
  | cons e rest ih =>
      intro err h
      unfold mkEgressList at h
      cases he : mkEgress e with
      | error e2 =>
          rw [he] at h
          simp at h
          exact ⟨e, by simp, by rw [he, h]⟩
      | ok x =>
          rw [he] at h
          cases hr : mkEgressList rest with
          | error e3 =>
              rw [hr] at h
              simp at h
              obtain ⟨e4, he4, hee⟩ := ih e3 hr
              exact ⟨e4, List.mem_cons_of_mem _ he4, by rw [hee, h]⟩
          | ok xs => rw [hr] at h; exact absurd h (by simp)

theorem mkEgressList_ok (l : List FlatRule) :
    ∀ xs, mkEgressList l = .ok xs → ∀ e ∈ l, ∃ x, mkEgress e = .ok x := by
  induction l with
  | nil => intro xs _ e he; exact absurd he (by simp)
  | cons e0 rest ih =>
      intro xs h e he
      unfold mkEgressList at h
      cases he0 : mkEgress e0 with
      | error e2 => rw [he0] at h; exact absurd h (by simp)
      | ok x =>
          rw [he0] at h
          cases hr : mkEgressList rest with
          | error e3 => rw [hr] at h; exact absurd h (by simp)
          | ok ys =>
              cases List.mem_cons.mp he with
              | inl hee => rw [hee]; exact ⟨x, he0⟩
              | inr hm => exact ih ys hr e hm

theorem mkSpecs_error (g : List (String × List FlatRule)) :
    ∀ err, mkSpecs g = .error err → ∃ p ∈ g, mkEgressList p.2 = .error err := by
  induction g with
  | nil => intro err h; exact absurd h (by simp [mkSpecs])
  | cons p rest ih =>
      intro err h
      obtain ⟨src, entries⟩ := p
      unfold mkSpecs at h
      cases he : mkEgressList entries with
      | error e2 =>
          rw [he] at h
          simp at h
          exact ⟨(src, entries), by simp, by rw [h] at he; exact he⟩
      | ok eg =>
          rw [he] at h
          cases hr : mkSpecs rest with
          | error e3 =>
              rw [hr] at h
              simp at h
              obtain ⟨q, hq, hqe⟩ := ih e3 hr
              exact ⟨q, List.mem_cons_of_mem _ hq, by rw [hqe, h]⟩
          | ok others => rw [hr] at h; exact absurd h (by simp)

theorem mkSpecs_ok (g : List (String × List FlatRule)) :
    ∀ specs, mkSpecs g = .ok specs → ∀ p ∈ g, ∃ xs, mkEgressList p.2 = .ok xs := by
  induction g with
  | nil => intro specs _ p hp; exact absurd hp (by simp)
  | cons p0 rest ih =>
      intro specs h p hp
      obtain ⟨src, entries⟩ := p0
      unfold mkSpecs at h
      cases he : mkEgressList entries with
      | error e2 => rw [he] at h; exact absurd h (by simp)
      | ok eg =>
          rw [he] at h
          cases hr : mkSpecs rest with
          | error e3 => rw [hr] at h; exact absurd h (by simp)
          | ok others =>
              cases List.mem_cons.mp hp with
              | inl hee => rw [hee]; exact ⟨eg, he⟩
              | inr hm => exact ih others hr p hm

-- ## Claim theorems for the converter

/-- Claim C8 counterexample: the claim as stated is false.  A rule list
whose first rule lacks `src` makes `convert_rules` fail with the bare
Python `KeyError` for the missing key — there is no `ConversionError`
anywhere in the code (the modelled exception type of converter.py has no
such shape) and the error does not identify the index of the offending
rule. -/
theorem C8_conversion_error_counterexample :
    convert_rules [{ src := Option.none, dest := some "backend",
                     port := some (.int 80), proto := some "tcp" }] =
      .error (.keyError "src") := by decide

/-- Claim C8 (corrected): for every input rule list in which some rule is
missing one of the required fields src, dest, port, or proto, conversion
fails with an uncaught `KeyError` naming one of those fields (no rule index
is reported and no `ConversionError` type exists); for the empty input
list, conversion succeeds and produces a document with an empty `specs`
list. -/
theorem C8_conversion_error_contract :
    (∀ rules : List FlatRule,
        (∃ r ∈ rules, r.src = Option.none ∨ r.dest = Option.none ∨
            r.port = Option.none ∨ r.proto = Option.none) →
        ∃ f, convert_rules rules = .error (.keyError f) ∧
          (f = "src" ∨ f = "dest" ∨ f = "port" ∨ f = "proto")) ∧
    convert_rules [] =
      .ok { apiVersion := "cilium.io/v2", kind := "CiliumNetworkPolicy",
            metadataName := "generated-policy", specs := [] } := by
  constructor
  · intro rules hmiss
    cases hg : groupBySrc [] rules with
    | error e2 =>
        have hc : convert_rules rules = .error e2 := by
          unfold convert_rules; rw [hg]
        have := groupBySrc_error rules [] e2 hg
        rw [this] at hc
        exact ⟨"src", hc, Or.inl rfl⟩
    | ok g =>
        cases hs : mkSpecs g with
        | error e3 =>
            have hc : convert_rules rules = .error e3 := by
              unfold convert_rules; simp only [hg, hs]
            obtain ⟨p, hp, hpe⟩ := mkSpecs_error g e3 hs
            obtain ⟨e, he, hee⟩ := mkEgressList_error p.2 e3 hpe
            cases mkEgress_error e e3 hee with
            | inl h1 => exact ⟨"dest", by rw [hc, h1], Or.inr (Or.inl rfl)⟩
            | inr h2 =>
                cases h2 with
                | inl h3 => exact ⟨"port", by rw [hc, h3], Or.inr (Or.inr (Or.inl rfl))⟩
                | inr h4 => exact ⟨"proto", by rw [hc, h4], Or.inr (Or.inr (Or.inr rfl))⟩
        | ok specs =>
            exfalso
            obtain ⟨r, hr, hcase⟩ := hmiss
            cases hcase with
            | inl h0 => exact (groupBySrc_ok_src rules [] g hg r hr) h0
            | inr hrest =>
                obtain ⟨q, hq, hrq⟩ := (groupBySrc_mem rules [] g hg).2 r hr
                obtain ⟨xs, hxs⟩ := mkSpecs_ok g specs hs q hq
                obtain ⟨x, hx⟩ := mkEgressList_ok q.2 xs hxs r hrq
                have hf := mkEgress_ok_fields r x hx
                rcases hrest with h | h | h
                · exact hf.1 h
                · exact hf.2.1 h
                · exact hf.2.2 h
  · rfl

/-- Claim C8 witness: the corrected contract instantiated at a concrete
one-rule list missing `proto`. -/
theorem C8_conversion_error_contract_witness :
    (∃ r ∈ [({ src := some "frontend", dest := some "backend",
               port := some (.int 80), proto := Option.none } : FlatRule)],
        r.src = Option.none ∨ r.dest = Option.none ∨
          r.port = Option.none ∨ r.proto = Option.none) ∧
    (∃ f, convert_rules [({ src := some "frontend", dest := some "backend",
                            port := some (.int 80), proto := Option.none } : FlatRule)] =
            .error (.keyError f) ∧
          (f = "src" ∨ f = "dest" ∨ f = "port" ∨ f = "proto")) :=
  ⟨by decide,
   C8_conversion_error_contract.1
     [{ src := some "frontend", dest := some "backend",
        port := some (.int 80), proto := Option.none }] (by decide)⟩

end CiliTest

namespace CiliTest

theorem lookup_encPairs (k : String) (l : List (String × String)) :
    List.lookup k (l.map (fun kv => (kv.1, Val.str kv.2))) =
      (List.lookup k l).map Val.str := by
  induction l with
  | nil => rfl
  | cons kv rest ih =>
      by_cases hk : (k == kv.1) = true
      · simp [List.lookup, hk]
      · simp [List.lookup, hk, ih]

theorem encPairs_get (k : String) (l : List (String × String)) :
    pyGetD (encPairs l) k .vnone =
      .ok (match List.lookup k l with
           | some s => Val.str s
           | Option.none => .vnone) := by
  unfold pyGetD encPairs
  simp only [lookup_encPairs]
  cases List.lookup k l with
  | none => rfl
  | some s => rfl

theorem encPortEntry_get_port (ps : PortEntry) :
    pyGetD (encPortEntry ps) "port" .vnone =
      .ok (match ps.port with
           | some s => Val.str s
           | Option.none => .vnone) := by
  obtain ⟨p, pr⟩ := ps
  cases p <;> cases pr <;> rfl

theorem eqStr_optStr (o : Option String) (port : String) :
    Val.eqStr (match o with
               | some s => Val.str s
               | Option.none => Val.vnone) port = (o == some port) := by
  cases o with
  | none => rfl
  | some s => rfl

theorem scanPortSpecsDyn_enc (port : String) (l : List PortEntry) :
    scanPortSpecsDyn port (l.map encPortEntry) = .ok (scanPortSpecs port l) := by
  induction l with
  | nil => rfl
  | cons ps rest ih =>
      simp only [List.map_cons, scanPortSpecsDyn, encPortEntry_get_port, eqStr_optStr]
      by_cases hc : (ps.port == some port || port == "any") = true
      · simp only [hc, if_true, scanPortSpecs, portEntryAdmits]
      · simp only [hc, if_false, scanPortSpecs, portEntryAdmits]
        rw [if_neg (by simp at hc; simp [hc])]
        exact ih

theorem scanToPortsDyn_enc (port : String) (l : List PortRule) :
    scanToPortsDyn port (l.map encPortRule) = .ok (scanToPorts port l) := by
  induction l with
  | nil => rfl
  | cons pr rest ih =>
      have h1 : pyGetD (encPortRule pr) "ports" (.list []) =
          .ok (.list (pr.ports.map encPortEntry)) := rfl
      simp only [List.map_cons, scanToPortsDyn, h1, pyIter, scanPortSpecsDyn_enc]
      cases hs : scanPortSpecs port pr.ports with
      | none => simp only [scanToPorts, hs]; exact ih
      | some r => simp only [scanToPorts, hs]

end CiliTest

namespace CiliTest

theorem truthy_enc_list {α : Type} (f : α → Val) (l : List α) :
    truthy (.list (l.map f)) = !l.isEmpty := by
  cases l <;> rfl

theorem scanToEndpointsDyn_enc (dest port : String) (e : EgressRule)
    (l : List LabelSelector) :
    scanToEndpointsDyn dest port (encEgress e) (l.map encSelector) =
      .ok (scanToEndpoints dest port e.toPorts l) := by
  induction l with
  | nil => rfl
  | cons ep rest ih =>
      have h1 : pyGetD (encSelector ep) "matchLabels" (.dict []) =
          .ok (encPairs ep.matchLabels) := rfl
      have h2 : pyGetD (encEgress e) "toPorts" (.list []) =
          .ok (.list (e.toPorts.map encPortRule)) := rfl
      simp only [List.map_cons, scanToEndpointsDyn, h1, encPairs_get]
      rw [show (List.lookup "app" ep.matchLabels) = ep.app from rfl]
      rw [eqStr_optStr]
      by_cases hm : (ep.app == some dest) = true
      · simp only [hm, if_true, h2, truthy_enc_list]
        cases htp : e.toPorts.isEmpty with
        | true =>
            simp only [htp, Bool.not_true, Bool.not_false, if_true, scanToEndpoints,
              endpointMatchesDest, hm]
        | false =>
            simp only [htp, Bool.not_false, Bool.not_true, if_false, pyIter,
              scanToPortsDyn_enc]
            simp only [scanToEndpoints, endpointMatchesDest, hm, if_true, htp]
            cases hs : scanToPorts port e.toPorts with
            | none => simp only [hs]; simp only [Bool.false_eq_true, if_false]; exact ih
            | some r => simp [hs]
      · simp only [hm, if_false]
        simp only [scanToEndpoints, endpointMatchesDest, hm, if_false]
        exact ih

theorem scanEgressDyn_enc (dest port : String) (l : List EgressRule) :
    scanEgressDyn dest port (l.map encEgress) = .ok (scanEgress dest port l) := by
  induction l with
  | nil => rfl
  | cons e rest ih =>
      have h1 : pyGetD (encEgress e) "toEndpoints" (.list []) =
          .ok (.list (e.toEndpoints.map encSelector)) := rfl
      simp only [List.map_cons, scanEgressDyn, h1, pyIter, scanToEndpointsDyn_enc]
      cases hs : scanToEndpoints dest port e.toPorts e.toEndpoints with
      | none => simp only [scanEgress, hs]; exact ih
      | some r => simp only [scanEgress, hs]

theorem scanSpecsDyn_enc (src dest port : String) (l : List PolicySpec) :
    scanSpecsDyn src dest port (l.map encSpec) = .ok (scanSpecs src dest port l) := by
  induction l with
  | nil => rfl
  | cons s rest ih =>
      have h1 : pyGetD (encSpec s) "endpointSelector" (.dict []) =
          .ok (encSelector s.endpointSelector) := rfl
      have h2 : pyGetD (encSelector s.endpointSelector) "matchLabels" (.dict []) =
          .ok (encPairs s.endpointSelector.matchLabels) := rfl
      have h3 : pyGetD (encSpec s) "egress" (.list []) =
          .ok (.list (s.egress.map encEgress)) := rfl
      simp only [List.map_cons, scanSpecsDyn, h1, h2, encPairs_get]
      rw [show (List.lookup "app" s.endpointSelector.matchLabels) =
            s.endpointSelector.app from rfl]
      rw [eqStr_optStr]
      by_cases hm : (s.endpointSelector.app == some src) = true
      · simp only [hm, if_true, h3, pyIter, scanEgressDyn_enc]
        simp only [scanSpecs, specMatchesSrc, hm, if_true]
        cases hs : scanEgress dest port s.egress with
        | none => simp only [hs]; exact ih
        | some r => simp only [hs]
      · simp only [hm, if_false]
        simp only [scanSpecs, specMatchesSrc, hm, if_false]
        exact ih

theorem simulateDyn_enc (src dest port : String) (c : CNPDoc) :
    simulateDyn src dest port (encDoc c) =
      .ok (simulate_policy_enforcement src dest port c) := by
  have h1 : pyGetD (encDoc c) "specs" .vnone = .ok (.list (c.specs.map encSpec)) := rfl
  cases hcs : c.specs with
  | nil =>
      have : resolveSpecsDyn (encDoc c) = .ok (.list []) := by
        unfold resolveSpecsDyn
        rw [hcs] at h1
        simp only [h1]
        rfl
      simp only [simulateDyn, this, pyIter, scanSpecsDyn]
      simp only [simulate_policy_enforcement, hcs, scanSpecs, Option.getD]
  | cons s0 srest =>
      have h2 : resolveSpecsDyn (encDoc c) = .ok (.list (c.specs.map encSpec)) := by
        unfold resolveSpecsDyn
        simp only [h1, hcs]
        rfl
      simp only [simulateDyn, h2, pyIter, scanSpecsDyn_enc]
      unfold simulate_policy_enforcement
      cases hs : scanSpecs src dest port c.specs with
      | none => simp only [hs, Option.getD]
      | some r => simp only [hs, Option.getD]

end CiliTest

namespace CiliTest

-- ## Claim theorem for simulator robustness

/-- Claim C4 (code_bug): the claim is what the code intends but the code
crashes.  For a syntactically valid document that stores its single
PolicySpec under the `spec` key — a mapping, the shape the repository's own
schema (validator.py) and syntax check (tester.py `_validate_policy_syntax`)
accept — the resolution `cnp.get("specs") or cnp.get("spec") or []` hands
the mapping itself to the `for spec in specs` loop, which iterates its
string keys, and `spec.get("endpointSelector", {})` raises
`AttributeError` on a `str`; the simulator therefore does not return a
(status, reason) pair.  The same policy content under a `specs` list is
simulated fine, which the second conjunct records. -/
theorem C4_single_spec_crash :
    simulateDyn "frontend" "backend" "80" singleSpecDoc =
      .error (.attributeError "str" "get") ∧
    simulateDyn "frontend" "backend" "80" (encDoc exampleDocAB) =
      .ok ("allowed", "Policy allows connection on port 80") :=
  ⟨by decide, by decide⟩

end CiliTest

namespace CiliTest

-- ## ValidationResult fold lemmas

theorem foldl_lint_preserves (ws : List LintWarning) (r : ValidationResult) :
    (ws.foldl ValidationResult.add_yaml_lint_warning r).is_valid = r.is_valid ∧
    (ws.foldl ValidationResult.add_yaml_lint_warning r).yaml_syntax_errors =
      r.yaml_syntax_errors ∧
    (ws.foldl ValidationResult.add_yaml_lint_warning r).schema_errors =
      r.schema_errors ∧
    (ws.foldl ValidationResult.add_yaml_lint_warning r).suggestions = r.suggestions := by
  induction ws generalizing r with
  | nil => exact ⟨rfl, rfl, rfl, rfl⟩
  | cons w rest ih =>
      simp only [List.foldl_cons]
      exact ih _

theorem foldl_schema_fields (es : List String) (r : ValidationResult) :
    (es.foldl ValidationResult.add_schema_error r).is_valid =
      (r.is_valid && es.isEmpty) ∧
    (es.foldl ValidationResult.add_schema_error r).yaml_syntax_errors =
      r.yaml_syntax_errors ∧
    (es.foldl ValidationResult.add_schema_error r).schema_errors =
      r.schema_errors ++ es ∧
    (es.foldl ValidationResult.add_schema_error r).suggestions = r.suggestions := by
  induction es generalizing r with
  | nil => exact ⟨(Bool.and_true _).symm, rfl, (List.append_nil _).symm, rfl⟩
  | cons e rest ih =>
      simp only [List.foldl_cons]
      obtain ⟨h1, h2, h3, h4⟩ := ih (r.add_schema_error e)
      refine ⟨?_, h2, ?_, h4⟩
      · rw [h1]
        show (false && rest.isEmpty) = (r.is_valid && (e :: rest).isEmpty)
        simp
      · rw [h3]
        show (r.schema_errors ++ [e]) ++ rest = r.schema_errors ++ (e :: rest)
        simp

theorem foldl_sugg_fields (ss : List String) (r : ValidationResult) :
    (ss.foldl ValidationResult.add_suggestion r).is_valid = r.is_valid ∧
    (ss.foldl ValidationResult.add_suggestion r).yaml_syntax_errors =
      r.yaml_syntax_errors ∧
    (ss.foldl ValidationResult.add_suggestion r).schema_errors = r.schema_errors ∧
    (ss.foldl ValidationResult.add_suggestion r).suggestions =
      r.suggestions ++ ss := by
  induction ss generalizing r with
  | nil => exact ⟨rfl, rfl, rfl, (List.append_nil _).symm⟩
  | cons s rest ih =>
      simp only [List.foldl_cons]
      obtain ⟨h1, h2, h3, h4⟩ := ih (r.add_suggestion s)
      refine ⟨h1, h2, h3, ?_⟩
      rw [h4]
      show (r.suggestions ++ [s]) ++ rest = r.suggestions ++ (s :: rest)
      simp

-- ## Mutual-exclusion lemmas

theorem schema_errors_both_keys (d : List (String × Val))
    (h1 : hasKey d "spec" = true) (h2 : hasKey d "specs" = true) :
    validate_cilium_schema (.dict d) ≠ [] := by
  unfold validate_cilium_schema
  intro hmap
  rw [List.map_eq_nil_iff] at hmap
  unfold schemaErrs at hmap
  rw [List.append_eq_nil] at hmap
  have h := hmap.2
  unfold oneOfSpecErrs at h
  simp [h1, h2] at h

theorem generate_suggestions_both_mem (d : List (String × Val)) (sugg : List String)
    (hk : Val.eqStr ((List.lookup "kind" d).getD .vnone) "CiliumNetworkPolicy" = true)
    (h1 : hasKey d "spec" = true) (h2 : hasKey d "specs" = true)
    (hok : generate_suggestions (.dict d) = .ok sugg) :
    bothSpecMsg ∈ sugg := by
  unfold generate_suggestions at hok
  simp only [hk, h1, h2, Bool.and_self, if_true] at hok
  by_cases hC : (truthy ((List.lookup "specs" d).getD .vnone) ||
      truthy ((List.lookup "spec" d).getD .vnone)) = true
  · rw [if_pos hC] at hok
    cases hi : pyIter ((List.lookup "specs" d).getD .vnone) with
    | error e => simp only [hi] at hok; exact absurd hok (by simp)
    | ok items =>
        simp only [hi] at hok
        cases hl : suggLoop true 0 items with
        | error e => simp only [hl] at hok; exact absurd hok (by simp)
        | ok more =>
            simp only [hl, Except.ok.injEq] at hok
            rw [← hok]
            exact List.mem_append_left _ (by simp [bothSpecMsg])
  · rw [if_neg hC] at hok
    simp only [pyIter, suggLoop] at hok
    rw [Except.ok.injEq] at hok
    rw [← hok]
    exact List.mem_append_left _ (by simp [bothSpecMsg])

-- ## Claim theorems for the validator

/-- Claim C5 counterexample: the claim as stated is false.  On a concrete
document that is schema-clean apart from carrying both `spec` and `specs`,
validation yields isValid = false, not true: both `oneOf` branches
`{required: [spec]}` and `{required: [specs]}` are satisfied, which Draft-7
`oneOf` rejects, so a schema error is produced.  The advisory half of the
claim does hold — the suggestion list is exactly the both-keys message. -/
theorem C5_mutual_exclusion_counterexample :
    Except.map (fun r : ValidationResult => (r.is_valid, r.suggestions))
        (validate_policy "policy.yaml" (.parsed [] bothKeysDoc)) =
      .ok (false, [bothSpecMsg]) := by decide

/-- Claim C5 (corrected): for every parsed mapping that contains both the
`spec` and `specs` keys and whose `kind` is "CiliumNetworkPolicy", whenever
`validate_policy` returns a result, that result has isValid = false (the
`oneOf` error makes the schema-error list non-empty — `specs` does not take
precedence schema-wise) while the advisory output is non-empty and mentions
both keys: it contains the literal both-keys suggestion, whose text has
both "spec" and "specs" as substrings. -/
theorem C5_mutual_exclusion_amended (d : List (String × Val)) (path : String)
    (lint : List LintWarning) (r : ValidationResult)
    (h1 : hasKey d "spec" = true) (h2 : hasKey d "specs" = true)
    (hk : Val.eqStr ((List.lookup "kind" d).getD .vnone) "CiliumNetworkPolicy" = true)
    (hok : validate_policy path (.parsed lint (.dict d)) = .ok r) :
    r.is_valid = false ∧ bothSpecMsg ∈ r.suggestions ∧
    charsSub "spec".data bothSpecMsg.data = true ∧
    charsSub "specs".data bothSpecMsg.data = true := by
  have htr : truthy (.dict d) = true := by
    cases d with
    | nil => simp [hasKey] at h1
    | cons kv rest => rfl
  simp only [validate_policy] at hok
  rw [if_pos htr] at hok
  cases hg : generate_suggestions (.dict d) with
  | error e => simp only [hg] at hok; exact absurd hok (by simp)
  | ok sugg =>
      simp only [hg, Except.ok.injEq] at hok
      subst hok
      refine ⟨?_, ?_, by decide, by decide⟩
      · obtain ⟨hs1, _, _, _⟩ := foldl_sugg_fields sugg _
        rw [hs1]
        obtain ⟨hg1, _, _, _⟩ := foldl_schema_fields (validate_cilium_schema (.dict d)) _
        rw [hg1]
        obtain ⟨hl1, _, _, _⟩ := foldl_lint_preserves lint ValidationResult.init
        rw [hl1]
        have hne := schema_errors_both_keys d h1 h2
        cases hsch : validate_cilium_schema (.dict d) with
        | nil => exact absurd hsch hne
        | cons a as => simp [hsch, ValidationResult.init]
      · obtain ⟨_, _, _, hs4⟩ := foldl_sugg_fields sugg _
        rw [hs4]
        exact List.mem_append_right _ (generate_suggestions_both_mem d sugg hk h1 h2 hg)

/-- Claim C5 witness: the amended statement instantiated at the concrete
both-keys document, whose validation result is computed explicitly. -/
theorem C5_mutual_exclusion_amended_witness :
    ({ is_valid := false, yaml_syntax_errors := [], yaml_lint_warnings := [],
       schema_errors := ["Schema validation error at " ++ pyq "root" ++
                         ": is valid under each of the given schemas"],
       suggestions := [bothSpecMsg] } : ValidationResult).is_valid = false ∧
    bothSpecMsg ∈
      ({ is_valid := false, yaml_syntax_errors := [], yaml_lint_warnings := [],
         schema_errors := ["Schema validation error at " ++ pyq "root" ++
                           ": is valid under each of the given schemas"],
         suggestions := [bothSpecMsg] } : ValidationResult).suggestions ∧
    charsSub "spec".data bothSpecMsg.data = true ∧
    charsSub "specs".data bothSpecMsg.data = true :=
  C5_mutual_exclusion_amended bothKeysDict "policy.yaml" []
    { is_valid := false, yaml_syntax_errors := [], yaml_lint_warnings := [],
      schema_errors := ["Schema validation error at " ++ pyq "root" ++
                        ": is valid under each of the given schemas"],
      suggestions := [bothSpecMsg] }
    (by decide) (by decide) (by decide) (by decide)

/-- Claim C9 (confirmed): for every ValidationResult produced by
`validate_policy`, isValid is true iff both the syntax-error list and the
schema-error list are empty; adding style warnings or suggestions never
changes isValid. -/
theorem C9_validation_invariant :
    (∀ (path : String) (outcome : ReadOutcome) (r : ValidationResult),
        validate_policy path outcome = .ok r →
        r.is_valid = (r.yaml_syntax_errors.isEmpty && r.schema_errors.isEmpty)) ∧
    (∀ (r : ValidationResult) (w : LintWarning),
        (r.add_yaml_lint_warning w).is_valid = r.is_valid) ∧
    (∀ (r : ValidationResult) (s : String),
        (r.add_suggestion s).is_valid = r.is_valid) := by
  refine ⟨?_, fun r w => rfl, fun r s => rfl⟩
  intro path outcome r hok
  cases outcome with
  | notFound =>
      simp only [validate_policy, Except.ok.injEq] at hok
      subst hok
      rfl
  | parseFailure msg =>
      simp only [validate_policy, Except.ok.injEq] at hok
      subst hok
      rfl
  | parsed lint data =>
      simp only [validate_policy] at hok
      by_cases ht : truthy data = true
      · rw [if_pos ht] at hok
        cases hg : generate_suggestions data with
        | error e => simp only [hg] at hok; exact absurd hok (by simp)
        | ok sugg =>
            simp only [hg, Except.ok.injEq] at hok
            subst hok
            obtain ⟨hs1, hs2, hs3, _⟩ := foldl_sugg_fields sugg _
            rw [hs1, hs2, hs3]
            obtain ⟨hg1, hg2, hg3, _⟩ :=
              foldl_schema_fields (validate_cilium_schema data) _
            rw [hg1, hg2, hg3]
            obtain ⟨hl1, hl2, hl3, _⟩ := foldl_lint_preserves lint ValidationResult.init
            rw [hl1, hl2, hl3]
            simp [ValidationResult.init]
      · rw [if_neg ht] at hok
        simp only [Except.ok.injEq] at hok
        subst hok
        obtain ⟨hl1, hl2, hl3, _⟩ := foldl_lint_preserves lint ValidationResult.init
        rw [hl1, hl2, hl3]
        rfl

/-- Claim C9 witness: the invariant instantiated at the concrete
file-not-found outcome, whose result has one syntax error and is invalid. -/
theorem C9_validation_invariant_witness :
    ({ is_valid := false, yaml_syntax_errors := ["File not found: policy.yaml"],
       yaml_lint_warnings := [], schema_errors := [],
       suggestions := [] } : ValidationResult).is_valid =
      (({ is_valid := false, yaml_syntax_errors := ["File not found: policy.yaml"],
          yaml_lint_warnings := [], schema_errors := [],
          suggestions := [] } : ValidationResult).yaml_syntax_errors.isEmpty &&
       ({ is_valid := false, yaml_syntax_errors := ["File not found: policy.yaml"],
          yaml_lint_warnings := [], schema_errors := [],
          suggestions := [] } : ValidationResult).schema_errors.isEmpty) :=
  C9_validation_invariant.1 "policy.yaml" .notFound _ rfl

/-- Claim C10 (confirmed): the semantic suggestion pass is gated on the
document kind.  For every parsed value that is not a mapping, and for
every mapping whose `kind` value is not exactly the string
"CiliumNetworkPolicy", `generate_suggestions` returns the empty list, so
all of its advisories are emitted only for CiliumNetworkPolicy mappings. -/
theorem C10_suggestion_gate :
    (∀ d : List (String × Val),
        Val.eqStr ((List.lookup "kind" d).getD .vnone) "CiliumNetworkPolicy" = false →
        generate_suggestions (.dict d) = .ok []) ∧
    (∀ v : Val, Val.isDict v = false → generate_suggestions v = .ok []) := by
  constructor
  · intro d hkind
    simp [generate_suggestions, hkind]
  · intro v hv
    cases v with
    | vnone => rfl
    | str s => rfl
    | int n => rfl
    | bool b => rfl
    | list l => rfl
    | dict d => simp [Val.isDict] at hv

/-- Claim C10 witness: a mapping of a different kind and a bare string both
produce no suggestions. -/
theorem C10_suggestion_gate_witness :
    generate_suggestions (.dict [("kind", .str "Deployment")]) = .ok [] ∧
    generate_suggestions (.str "not-a-mapping") = .ok [] :=
  ⟨C10_suggestion_gate.1 [("kind", .str "Deployment")] (by decide),
   C10_suggestion_gate.2 (.str "not-a-mapping") (by decide)⟩

end CiliTest
